import Mathlib

/-!
Verification of the versioned DMP document store of `src/rds.ts`
(the DynamoDB-backed variant taking explicit connection parameters).

The embedding models:
  * the key scheme codec (`dmpIdToPK`, `versionToSK`, `versionToExtensionSK`
    and the decoding `PK.replace('DMP#', 'https://')` used by
    `getAllUniqueDMPIds`);
  * the document splitter (`pick` over `EXTENSION_KEYS`, and the
    `{...version, ...extensions[0]}` merge of `getDMPs`);
  * the store operations (`DMPExists`, `getDMPVersions`, `getDMPs`,
    `getDMPExtensions`, `createDMP`, `updateDMP`, `tombstoneDMP`,
    `deleteDMP`) over an explicit store state.

The backing DynamoDB table is modelled as a list of items keyed by
(partition key, sort key); `PutItemCommand` replaces the single item with
the same full key, `DeleteItemCommand` removes the single item whose full
primary key equals the provided `Key` (a `Key` that carries no sort key
matches no stored item of the composite-key table), and queries filter by
partition key with an exact or `begins_with` sort-key condition.  Logging,
marshalling (`removeUndefinedValues` — the model has no undefined values)
and pagination are elided; adapter-level I/O failures are outside the
model, so every thrown error is a `DMPToolDynamoError`, modelled as
`Except String`.  Ambient time (`Date.now()`, `new Date()` and JavaScript
date parsing) is passed in as an explicit context.
-/

namespace DmpStore

/-! ## Character and string utilities (JavaScript string semantics) -/

/-- `\w` of the JavaScript regexp grammar: ASCII letters, digits, underscore. -/
def isWordChar (c : Char) : Bool := c.isAlphanum || c == '_'

/-- JavaScript whitespace test used by `String.prototype.trim` (the common
whitespace characters; the ids involved are URLs/DOIs of ASCII). -/
def isJsSpace (c : Char) : Bool :=
  c == ' ' || c == '\t' || c == '\n' || c == '\r'

/-- `String.prototype.trim`. -/
def trimWS (s : String) : String :=
  ⟨((s.data.dropWhile isJsSpace).reverse.dropWhile isJsSpace).reverse⟩

/-- One step of `dmpId.replace(/(^\w+:|^)\/\//, '')` (from `dmpIdToPK`,
src/rds.ts:1317-1321): the regexp is anchored, matching either a leading
`scheme://` (`\w+` then `:`) or a plain leading `//`; the first (only
possible) match is removed. -/
def stripSchemeL (s : List Char) : List Char :=
  if s.take 2 = ['/', '/'] then s.drop 2
  else
    let pre := s.takeWhile isWordChar
    if pre ≠ [] ∧ (s.drop pre.length).take 3 = [':', '/', '/'] then
      s.drop (pre.length + 3)
    else s

/-- JavaScript `s.replace(pat, rep)` with a plain-string pattern: only the
first occurrence is replaced. -/
def replaceFirstL (pat rep : List Char) : List Char → List Char
  | [] => []
  | c :: rest =>
    if pat.isPrefixOf (c :: rest) then rep ++ (c :: rest).drop pat.length
    else c :: replaceFirstL pat rep rest

/-- String wrapper for `replaceFirstL`. -/
def replaceFirst (s pat rep : String) : String :=
  ⟨replaceFirstL pat.data rep.data s.data⟩

/-- `id.replace(/^https?:\/\//, '')` (used when building `access_url`
values in `getDMPExtensions`, src/rds.ts:634). -/
def stripHttpL (s : List Char) : List Char :=
  if (['h', 't', 't', 'p', 's', ':', '/', '/']).isPrefixOf s then s.drop 8
  else if (['h', 't', 't', 'p', ':', '/', '/']).isPrefixOf s then s.drop 7
  else s

/-- String wrapper for `stripHttpL`. -/
def stripHttp (s : String) : String := ⟨stripHttpL s.data⟩

/-- `begins_with` of the DynamoDB key condition, on strings. -/
def strIsPrefixOf (p s : String) : Bool := p.data.isPrefixOf s.data

/-- Lexicographic comparison of character lists by code point: the order
JavaScript's `<` and `localeCompare` give the ASCII keys and RFC3339
timestamps compared here. -/
def charListLt : List Char → List Char → Bool
  | [], [] => false
  | [], _ :: _ => true
  | _ :: _, [] => false
  | a :: as, b :: bs =>
    if a.toNat < b.toNat then true
    else if b.toNat < a.toNat then false
    else charListLt as bs

/-- JavaScript `a < b` on strings. -/
def strLt (a b : String) : Bool := charListLt a.data b.data

/-! ## Key scheme codec (src/rds.ts:225-231, 1317-1344) -/

def DMP_PK_PREFIX : String := "DMP"
def DMP_VERSION_PREFIX : String := "VERSION"
def DMP_EXTENSION_PREFIX : String := "EXTENSION"
def DMP_LATEST_VERSION : String := "latest"
def DMP_TOMBSTONE_VERSION : String := "tombstone"

/-- `dmpIdToPK` (src/rds.ts:1317-1321): strip the protocol and slashes from
the DMP ID, then prefix with `DMP#`. -/
def dmpIdToPK (dmpId : String) : String :=
  ⟨('D' :: 'M' :: 'P' :: '#' :: []) ++ stripSchemeL dmpId.data⟩

/-- The decoding applied to stored partition keys by `getAllUniqueDMPIds`
(src/rds.ts:377) and `getDMPVersions` (src/rds.ts:430):
`PK.replace('DMP#', 'https://')`. -/
def pkToDmpId (pk : String) : String := replaceFirst pk "DMP#" "https://"

/-- `versionToSK` (src/rds.ts:1330-1332). -/
def versionToSK (version : String) : String := "VERSION#" ++ version

/-- `versionToExtensionSK` (src/rds.ts:1342-1344). -/
def versionToExtensionSK (version : String) : String := "EXTENSION#" ++ version

/-! ## Document splitter (src/rds.ts:241-256, 694-699, 1352-1360)

A JavaScript object is modelled as an association list of string keys; all
operations access it through `lookupKey`, so only its map semantics matter
(JavaScript objects have no duplicate keys; where a law needs that, it
carries a `Nodup` hypothesis on the key list). -/

/-- `key in obj ? obj[key] : undefined`. -/
def lookupKey {α : Type} (obj : List (String × α)) (k : String) : Option α :=
  (obj.find? (fun p => p.1 == k)).map (fun p => p.2)

/-- `Object.keys(obj)`. -/
def keysOf {α : Type} (obj : List (String × α)) : List String :=
  obj.map (fun p => p.1)

/-- `obj.hasOwnProperty(key)` / `keys.includes(key)` on an object. -/
def hasKey {α : Type} (obj : List (String × α)) (k : String) : Bool :=
  obj.any (fun p => p.1 == k)

/-- `pick(obj, keys)` (src/rds.ts:1352-1360): for each requested key that is
present in `obj`, copy its value. -/
def pick {α : Type} (obj : List (String × α)) (keys : List String) :
    List (String × α) :=
  keys.filterMap (fun k => (lookupKey obj k).map (fun v => (k, v)))

/-- `EXTENSION_KEYS` (src/rds.ts:242-256): the DMP Tool extension
allow-list; any other top-level key belongs to the RDA Common Standard
core document. -/
def EXTENSION_KEYS : List String :=
  ["featured", "funding_opportunity", "funding_project", "narrative",
   "provenance", "privacy", "rda_schema_version", "registered",
   "research_domain", "research_facility", "status", "tombstoned",
   "version"]

/-- `pick(innerMetadata, [...EXTENSION_KEYS])`: the extension part of a
document (src/rds.ts:695, 824, 997). -/
def splitExtension {α : Type} (inner : List (String × α)) : List (String × α) :=
  pick inner EXTENSION_KEYS

/-- `pick(innerMetadata, Object.keys(innerMetadata).filter(k =>
!EXTENSION_KEYS.includes(k)))`: the core part of a document
(src/rds.ts:696-699, 825-828, 998-1001). -/
def splitCore {α : Type} (inner : List (String × α)) : List (String × α) :=
  pick inner ((keysOf inner).filter (fun k => !(EXTENSION_KEYS.contains k)))

/-- The object spread `{...a, ...b}` (as in `{...version, ...extensions[0]}`
of `getDMPs`, src/rds.ts:532-537): `b`'s fields take precedence.  The model
keeps the overridden keys at `b`'s position; as a key-value map this is the
same object, and every consumer reads through `lookupKey`. -/
def objMerge {α : Type} (a b : List (String × α)) : List (String × α) :=
  a.filter (fun p => !(hasKey b p.1)) ++ b

/-- `areEqual` of src/general.ts:116-145 restricted to one level of
(string-keyed) objects: same number of keys, and every key of `a` is a key
of `b` with an equal value. -/
def docsEqual {α : Type} [DecidableEq α] (a b : List (String × α)) : Bool :=
  ((keysOf a).length == (keysOf b).length) &&
    (keysOf a).all (fun k => hasKey b k && (lookupKey a k == lookupKey b k))

/-! ## Values and documents of the store operations

Stored field values are RFC3339 timestamp / text strings, plus the derived
version index (`[{access_url, version}]`) that `getDMPExtensions` attaches
under the `version` key.  JavaScript truthiness and string coercion are
modelled for exactly these shapes. -/

inductive Value where
  | vStr (s : String)
  | vVersionIndex (entries : List (String × String))
deriving DecidableEq

abbrev Doc := List (String × Value)

/-- JavaScript truthiness of a possibly absent field: `undefined` and the
empty string are falsy; a non-empty string or an array is truthy. -/
def truthyValue : Option Value → Bool
  | none => false
  | some (.vStr s) => !(s == "")
  | some (.vVersionIndex _) => true

/-- JavaScript string interpolation of a possibly absent value, as in
`` `OBSOLETE: ${dmp.dmp?.title}` `` (src/rds.ts:1013): `undefined` prints
as `"undefined"`, an array joins its elements with `,` and each object
prints as `[object Object]`. -/
def jsToString : Option Value → String
  | none => "undefined"
  | some (.vStr s) => s
  | some (.vVersionIndex es) =>
      String.intercalate "," (es.map (fun _ => "[object Object]"))

/-- JavaScript `a > b` applied to `modified` fields
(`latest.dmp?.modified > innerMetadata.modified`, src/rds.ts:845): for two
strings this is the lexicographic comparison; a comparison against
`undefined` is false.  (A non-string `modified` does not arise: every write
stores `modified` as an RFC3339 string.) -/
def jsGtStr : Option Value → Option Value → Bool
  | some (.vStr a), some (.vStr b) => strLt b a
  | _, _ => false

/-- Read a field expected to be a string. -/
def getStr (d : Doc) (k : String) : Option String :=
  match lookupKey d k with
  | some (.vStr s) => some s
  | _ => none

/-- JavaScript property assignment `obj[k] = v` (up to key order, which no
consumer observes). -/
def setKey (d : Doc) (k : String) (v : Value) : Doc :=
  d.filter (fun p => !(p.1 == k)) ++ [(k, v)]

/-! ## The backing DynamoDB table

A stored item is a row keyed by (partition key, sort key); `attrs` holds
the remaining fields (the source destructures `{PK, SK, ...rest}` on every
read, so the model keeps them apart).  `put` replaces the single item with
the same full key; `delete` removes the single item whose full primary key
equals the given `Key` — the table's primary key is composite (every write
supplies `PK` and `SK`), so a `Key` carrying no sort key matches no stored
item (the live service rejects such a request outright).  Queries filter
one partition by an exact or `begins_with` sort-key condition; the code
re-sorts every result it consumes, so the adapter's result order is
irrelevant. -/

structure Item where
  PK : String
  SK : String
  attrs : Doc
deriving DecidableEq

abbrev Store := List Item

def putItem (s : Store) (it : Item) : Store :=
  it :: s.filter (fun j => !(j.PK == it.PK && j.SK == it.SK))

def deleteItem (s : Store) (pk : String) (sk : Option String) : Store :=
  s.filter (fun j => !(j.PK == pk && sk == some j.SK))

def queryExact (s : Store) (pk sk : String) : List Item :=
  s.filter (fun j => j.PK == pk && j.SK == sk)

def queryPrefix (s : Store) (pk pre : String) : List Item :=
  s.filter (fun j => j.PK == pk && strIsPrefixOf pre j.SK)

/-- Insertion step of `Array.prototype.sort` with a boolean "comes before"
comparator. -/
def insertBy {α : Type} (before : α → α → Bool) (x : α) : List α → List α
  | [] => [x]
  | y :: ys => if before x y then x :: y :: ys else y :: insertBy before x ys

/-- `Array.prototype.sort` (insertion sort; only the resulting order up to
ties matters, and none of the verified properties depends on tie order). -/
def sortBy {α : Type} (before : α → α → Bool) : List α → List α
  | [] => []
  | x :: xs => insertBy before x (sortBy before xs)

/-- Ambient context of a store call: the DMPTool domain name and the call's
view of wall-clock time — `Date.now()` (`now`, in ms),
`convertMySQLDateTimeToRFC3339(new Date())` (`nowStr`, `none` when the
conversion fails, src/general.ts:55), and RFC3339 parsing
`new Date(s).getTime()` (`toTime`, `none` for an invalid date, whose
`NaN` makes every comparison false). -/
structure Ctx where
  domainName : String
  now : Int
  nowStr : Option String
  toTime : String → Option Int

/-- `DMPVersionType` (src/rds.ts:258-261). -/
structure DMPVersion where
  dmpId : String
  modified : String
deriving DecidableEq

/-! ## Store operations (src/rds.ts:309-1187)

Each mutating operation returns the store it leaves behind together with
its result or thrown `DMPToolDynamoError`; reads are pure.  The
`dmp?.dmp ?? dmp` unwrapping of the top-level `dmp` wrapper is elided: a
`Doc` is the inner metadata object.  The guards of the private helpers
(`createDMPExtensions`, `updateDMPExtensions`, `tombstoneDMPExtensions`)
re-check conditions their callers have already established, so they are
not reachable as errors and are not repeated. -/

/-- `DMPExists` (src/rds.ts:309-341): a lightweight query for the
`VERSION#latest` core item.  (Its guard throws on a blank id; every caller
below checks the id first, and the claims apply it to non-blank ids.) -/
def DMPExists (s : Store) (dmpId : String) : Bool :=
  decide (0 < (queryExact s (dmpIdToPK dmpId) (versionToSK DMP_LATEST_VERSION)).length)

/-- One entry of `getDMPVersions` (src/rds.ts:425-434): kept when
`unmarshalled.PK && unmarshalled.SK && unmarshalled.modified` are truthy.
(`modified` is an RFC3339 string in every stored item the code writes.) -/
def mkVersionEntry (it : Item) : Option DMPVersion :=
  match lookupKey it.attrs "modified" with
  | some (.vStr m) =>
    if !(it.PK == "") && !(it.SK == "") && !(m == "") then
      some ⟨pkToDmpId it.PK, m⟩
    else none
  | _ => none

/-- `getDMPVersions` (src/rds.ts:402-447): all `VERSION#*` items of the
record, as `{dmpId, modified}` entries sorted by `modified` descending. -/
def getDMPVersions (s : Store) (dmpId : String) :
    Except String (List DMPVersion) :=
  if trimWS dmpId == "" then
    Except.error "Missing Dynamo Config or DMP ID"
  else
    let items := queryPrefix s (dmpIdToPK dmpId) DMP_VERSION_PREFIX
    Except.ok (sortBy (fun a b => strLt b.modified a.modified)
      (items.filterMap mkVersionEntry))

/-- The version index built by `getDMPExtensions` (src/rds.ts:628-640):
`{access_url, version}` pairs, the newest (index 0) without the
`?version=` query parameter. -/
def mkVersionIndexAux (domainName dmpId : String) :
    Nat → List DMPVersion → List (String × String)
  | _, [] => []
  | i, v :: rest =>
    ("https://" ++ domainName ++ "/dmps/" ++ stripHttp dmpId ++
        (if i == 0 then "" else "?version=" ++ v.modified),
      v.modified) :: mkVersionIndexAux domainName dmpId (i + 1) rest

/-- The body of `getDMPExtensions`'s per-item map (src/rds.ts:615-644,
written inline in the source): attach the derived `version` index to the
extension fields when the record has any versions. -/
def attachVersionIndex (ctx : Ctx) (s : Store) (dmpId : String)
    (it : Item) : Except String Doc :=
  match getDMPVersions s dmpId with
  | Except.error e => Except.error e
  | Except.ok versions =>
    if versions.length == 0 then Except.ok it.attrs
    else Except.ok (setKey it.attrs "version"
      (Value.vVersionIndex (mkVersionIndexAux ctx.domainName dmpId 0 versions)))

/-- `getDMPExtensions` (src/rds.ts:573-647): the record's extension items
for an exact version (or all, by prefix), each with the derived `version`
index attached when the record has any versions. -/
def getDMPExtensions (ctx : Ctx) (s : Store) (dmpId : String)
    (version : Option String) : Except String (List Doc) :=
  if trimWS dmpId == "" then
    Except.error "Missing Dynamo Config or DMP ID"
  else
    let pk := dmpIdToPK dmpId
    let items :=
      match version with
      | some v =>
        if v == "" then queryPrefix s pk DMP_EXTENSION_PREFIX
        else queryExact s pk (versionToExtensionSK v)
      | none => queryPrefix s pk DMP_EXTENSION_PREFIX
    let sorted := sortBy (fun a b : Item => strLt b.SK a.SK) items
    sorted.mapM (attachVersionIndex ctx s dmpId)

/-- The body of `getDMPs`'s per-item map (src/rds.ts:518-542, written
inline in the source): fetch the item's matching extension document (by the
version token recovered from its sort key) and spread it over the core
fields. -/
def mergeItemWithExtensions (ctx : Ctx) (s : Store) (dmpId : String)
    (it : Item) : Except String Doc :=
  match getDMPExtensions ctx s dmpId
      (some (replaceFirst it.SK "VERSION#" "")) with
  | Except.error e => Except.error e
  | Except.ok exts =>
    match exts with
    | e :: _ => Except.ok (objMerge it.attrs e)
    | [] => Except.ok it.attrs

/-- `getDMPs` (src/rds.ts:468-560): the record's core items for an exact
version (or all, by prefix), each merged with its matching extension
document when `includeExtensions` is set. -/
def getDMPs (ctx : Ctx) (s : Store) (dmpId : String) (version : Option String)
    (includeExtensions : Bool) : Except String (List Doc) :=
  if trimWS dmpId == "" then
    Except.error "Missing Dynamo config or DMP ID"
  else
    let pk := dmpIdToPK dmpId
    let items :=
      match version with
      | some v =>
        if v == "" then queryPrefix s pk DMP_VERSION_PREFIX
        else queryExact s pk (versionToSK v)
      | none => queryPrefix s pk DMP_VERSION_PREFIX
    if items.length == 0 then Except.ok []
    else
      let sorted := sortBy (fun a b : Item => strLt b.SK a.SK) items
      let res :=
        if includeExtensions then
          sorted.mapM (mergeItemWithExtensions ctx s dmpId)
        else Except.ok (sorted.map (fun it => it.attrs))
      match res with
      | Except.error e =>
        Except.error ("Unable to fetch DMP id: " ++ dmpId ++ ", ver: " ++
          (match version with | some v => v | none => "null") ++ " - " ++ e)
      | Except.ok docs => Except.ok docs

/-- `getAllUniqueDMPIds` (src/rds.ts:350-392): scan for every
`VERSION#latest` item and decode its partition key
(`PK.replace('DMP#', 'https://')`), paired with its `modified`. -/
def getAllUniqueDMPIds (s : Store) : List (String × String) :=
  (s.filter (fun it => it.SK == versionToSK DMP_LATEST_VERSION)).filterMap
    (fun it =>
      match lookupKey it.attrs "modified" with
      | some (Value.vStr m) =>
        if !(it.PK == "") && !(m == "") then some (pkToDmpId it.PK, m)
        else none
      | _ => none)

/-- `createDMP` (src/rds.ts:668-742): when writing `latest`, fail if a
latest already exists; split the document, write the core item then the
extension item (always, src/rds.ts:715-721), then re-read the merged
latest. -/
def createDMP (ctx : Ctx) (s : Store) (dmpId : String) (dmp : Doc)
    (version : String) (includeExtensions : Bool) :
    Store × Except String (Option Doc) :=
  if trimWS dmpId == "" then
    (s, Except.error "Missing Dynamo config, DMP ID or DMP metadata record")
  else if version == DMP_LATEST_VERSION && DMPExists s dmpId then
    (s, Except.error "Latest version already exists")
  else
    let dmptoolExtension := splitExtension dmp
    let rdaCommonStandard := splitCore dmp
    let s1 := putItem s
      ⟨dmpIdToPK dmpId, versionToSK version, rdaCommonStandard⟩
    let s2 := putItem s1
      ⟨dmpIdToPK dmpId, versionToExtensionSK version, dmptoolExtension⟩
    match getDMPs ctx s2 dmpId (some DMP_LATEST_VERSION) includeExtensions with
    | Except.error e => (s2, Except.error e)
    | Except.ok docs => (s2, Except.ok docs.head?)

/-- Fallback of `const gracePeriod = gracePeriodInMS ? Number(gracePeriodInMS)
: 7200000` (src/rds.ts:853); also the default of the `gracePeriodInMS`
parameter (src/rds.ts:812). -/
def DEFAULT_GRACE_PERIOD_MS : Int := 7200000

/-- The versioning decision of `updateDMP` (src/rds.ts:851-858): snapshot
when the incoming extension's `provenance` differs from the latest's, or
when `Date.now() - new Date(latest.modified).getTime()` exceeds the grace
period (false when the date does not parse, as `NaN` comparisons are). -/
def needToVersion (now : Int) (toTime : String → Option Int)
    (latest : Doc) (incomingExt : Doc) (gracePeriod : Int) : Bool :=
  (decide (lookupKey incomingExt "provenance" ≠ lookupKey latest "provenance")) ||
    (match lookupKey latest "modified" with
      | some (.vStr m) =>
        (match toTime m with
          | some t => decide (now - t > gracePeriod)
          | none => false)
      | _ => false)

/-- The `version` argument of the snapshot `createDMP(... latest.dmp,
latest.dmp.modified)` call (src/rds.ts:868-874): an absent `modified`
passes `undefined`, which triggers the callee's `DMP_LATEST_VERSION`
parameter default; any other value is interpolated as a string. -/
def jsVersionArg : Option Value → String
  | some v => jsToString (some v)
  | none => DMP_LATEST_VERSION

/-- `updateDMP` (src/rds.ts:807-919): reject when the latest is absent,
tombstoned, or strictly newer than the incoming document; snapshot the
current latest under its own `modified` token when `needToVersion`; then
overwrite the `latest` core and extension items (the extension always,
src/rds.ts:893-899) and re-read the merged latest. -/
def updateDMP (ctx : Ctx) (s : Store) (dmpId : String) (dmp : Doc)
    (gracePeriodInMS : Int) (includeExtensions : Bool) :
    Store × Except String (Option Doc) :=
  if dmpId == "" then
    (s, Except.error "Missing Dynamo config, DMP ID or DMP metadata record")
  else
    let dmptoolExtension := splitExtension dmp
    let rdaCommonStandard := splitCore dmp
    match getDMPs ctx s dmpId (some DMP_LATEST_VERSION) true with
    | Except.error e => (s, Except.error e)
    | Except.ok latests =>
      match latests.head? with
      | none =>
        (s, Except.error ("Cannot update a historical DMP id: " ++ dmpId ++
          ", ver: " ++ DMP_LATEST_VERSION))
      | some latest =>
        if truthyValue (lookupKey latest "tombstoned") ||
            jsGtStr (lookupKey latest "modified") (lookupKey dmp "modified") then
          (s, Except.error ("Cannot update a historical DMP id: " ++ dmpId ++
            ", ver: " ++ DMP_LATEST_VERSION))
        else
          let gracePeriod :=
            if gracePeriodInMS == 0 then DEFAULT_GRACE_PERIOD_MS
            else gracePeriodInMS
          let ntv := needToVersion ctx.now ctx.toTime latest dmptoolExtension
            gracePeriod
          let snap :=
            if ntv then
              createDMP ctx s dmpId latest
                (jsVersionArg (lookupKey latest "modified")) true
            else (s, Except.ok none)
          match snap.2 with
          | Except.error e => (snap.1, Except.error e)
          | Except.ok _ =>
            let s2 := putItem snap.1
              ⟨dmpIdToPK dmpId, versionToSK DMP_LATEST_VERSION,
                rdaCommonStandard⟩
            let s3 := putItem s2
              ⟨dmpIdToPK dmpId, versionToExtensionSK DMP_LATEST_VERSION,
                dmptoolExtension⟩
            match getDMPs ctx s3 dmpId (some DMP_LATEST_VERSION)
                includeExtensions with
            | Except.error e => (s3, Except.error e)
            | Except.ok docs => (s3, Except.ok docs.head?)

/-- `tombstoneDMP` (src/rds.ts:967-1063) with `tombstoneDMPExtensions`
(src/rds.ts:1074-1110): for a registered latest, write the
`VERSION#tombstone` core item (title prefixed `OBSOLETE: `, `modified` set
to now), delete the `latest` core item, write the `EXTENSION#tombstone`
item (`tombstoned` set to now), delete the `latest` extension item, then
re-read the merged tombstone record.  The helper recomputes `new Date()`;
the model's context gives both computations the same instant. -/
def tombstoneDMP (ctx : Ctx) (s : Store) (dmpId : String)
    (includeExtensions : Bool) : Store × Except String (Option Doc) :=
  if trimWS dmpId == "" then
    (s, Except.error "Missing Dynamo config or DMP ID")
  else
    match getDMPs ctx s dmpId (some DMP_LATEST_VERSION) true with
    | Except.error e => (s, Except.error e)
    | Except.ok dmps =>
      match dmps.head? with
      | none =>
        (s, Except.error ("Unable to find DMP id: " ++ dmpId ++ ", ver: " ++
          DMP_LATEST_VERSION))
      | some dmp =>
        if truthyValue (lookupKey dmp "registered") then
          let dmptoolExtension := splitExtension dmp
          let rdaCommonStandard := splitCore dmp
          match ctx.nowStr with
          | none => (s, Except.error "Unable to create modified date")
          | some now =>
            let versionItem : Item :=
              ⟨dmpIdToPK dmpId, versionToSK DMP_TOMBSTONE_VERSION,
                setKey (setKey rdaCommonStandard "title"
                    (Value.vStr ("OBSOLETE: " ++ jsToString (lookupKey dmp "title"))))
                  "modified" (Value.vStr now)⟩
            let s1 := putItem s versionItem
            let s2 := deleteItem s1 (dmpIdToPK dmpId)
              (some (versionToSK DMP_LATEST_VERSION))
            match ctx.nowStr with
            | none => (s2, Except.error "Unable to create tombstone date")
            | some now2 =>
              let s3 := putItem s2
                ⟨dmpIdToPK dmpId, versionToExtensionSK DMP_TOMBSTONE_VERSION,
                  setKey dmptoolExtension "tombstoned" (Value.vStr now2)⟩
              let s4 := deleteItem s3 (dmpIdToPK dmpId)
                (some (versionToExtensionSK DMP_LATEST_VERSION))
              match getDMPs ctx s4 dmpId (some DMP_TOMBSTONE_VERSION)
                  includeExtensions with
              | Except.error e => (s4, Except.error e)
              | Except.ok docs => (s4, Except.ok docs.head?)
        else
          (s, Except.error ("Unable to tombstone DMP id: " ++ dmpId ++
            " because it is not registered/published"))

/-- `deleteDMP` (src/rds.ts:1125-1187): for an unregistered latest, issue a
single `DeleteItemCommand` whose `Key` holds only the partition key
(src/rds.ts:1163-1166) and return the pre-delete document (without
extension fields when `includeExtensions` is false). -/
def deleteDMP (ctx : Ctx) (s : Store) (dmpId : String)
    (includeExtensions : Bool) : Store × Except String Doc :=
  if trimWS dmpId == "" then
    (s, Except.error "Missing Dynamo config or DMP ID")
  else
    match getDMPs ctx s dmpId (some DMP_LATEST_VERSION) true with
    | Except.error e => (s, Except.error e)
    | Except.ok dmps =>
      match dmps.head? with
      | some latest =>
        let rdaOnly := splitCore latest
        let toReturn := if includeExtensions then latest else rdaOnly
        if !(truthyValue (lookupKey latest "registered")) then
          (deleteItem s (dmpIdToPK dmpId) none, Except.ok toReturn)
        else
          (s, Except.error ("Unable to delete id: " ++ dmpId ++
            " because it does not exist or is registered"))
      | none =>
        (s, Except.error ("Unable to find id: " ++ dmpId ++ ", ver: " ++
          DMP_LATEST_VERSION))

/-- `true` exactly for a non-thrown result. -/
def isOkE {ε α : Type} : Except ε α → Bool
  | Except.ok _ => true
  | Except.error _ => false

/-- The number of versions `getDMPVersions` reports (0 when it throws;
the id used below is never blank, so it does not throw). -/
def versionCount (s : Store) (dmpId : String) : Nat :=
  match getDMPVersions s dmpId with
  | Except.ok l => l.length
  | Except.error _ => 0

/-! ## Concrete fixtures used to instantiate the verified laws -/

/-- A concrete ambient context: domain `example.org`, `Date.now() = 0`,
a fixed RFC3339 clock string, and a date parser sending everything to 0. -/
def ctx0 : Ctx :=
  ⟨"example.org", 0, some "2025-02-01T00:00:00Z", fun _ => some 0⟩

def dmpId0 : String := "doi.org/11.1/X"

def coreAttrs0 : Doc :=
  [("title", Value.vStr "T"),
   ("created", Value.vStr "2025-01-01T00:00:00Z"),
   ("modified", Value.vStr "2025-01-01T00:00:00Z")]

/-- An unregistered extension item's fields. -/
def extAttrs0 : Doc :=
  [("provenance", Value.vStr "dmptool"), ("status", Value.vStr "draft")]

/-- A registered extension item's fields. -/
def extAttrsReg0 : Doc :=
  [("provenance", Value.vStr "dmptool"),
   ("registered", Value.vStr "2025-01-02T00:00:00Z")]

/-- A store holding one unregistered record (`latest` core + extension). -/
def store0 : Store :=
  [⟨dmpIdToPK dmpId0, versionToSK DMP_LATEST_VERSION, coreAttrs0⟩,
   ⟨dmpIdToPK dmpId0, versionToExtensionSK DMP_LATEST_VERSION, extAttrs0⟩]

/-- A store holding one registered record (`latest` core + extension). -/
def storeReg0 : Store :=
  [⟨dmpIdToPK dmpId0, versionToSK DMP_LATEST_VERSION, coreAttrs0⟩,
   ⟨dmpIdToPK dmpId0, versionToExtensionSK DMP_LATEST_VERSION, extAttrsReg0⟩]

/-- An incoming update whose `modified` equals the stored latest's and
whose `provenance` matches (no versioning trigger). -/
def incomingEq0 : Doc :=
  [("title", Value.vStr "T2"),
   ("modified", Value.vStr "2025-01-01T00:00:00Z"),
   ("provenance", Value.vStr "dmptool")]

/-- An incoming update strictly older than the stored latest. -/
def incomingStale0 : Doc :=
  [("title", Value.vStr "T0"),
   ("modified", Value.vStr "2024-12-31T00:00:00Z"),
   ("provenance", Value.vStr "dmptool")]

/-- An incoming update with a changed `provenance` and a newer
`modified`. -/
def incomingNewProv0 : Doc :=
  [("title", Value.vStr "T3"),
   ("modified", Value.vStr "2025-01-03T00:00:00Z"),
   ("provenance", Value.vStr "other")]

/-- A store holding only an immutable snapshot written under the timestamp
token `2020-01-01T00:00:00Z`. -/
def snapStore0 : Store :=
  [⟨dmpIdToPK dmpId0, versionToSK "2020-01-01T00:00:00Z",
    [("title", Value.vStr "A")]⟩]

/-! ## Sequences of store operations

One reified call of the mutating API, for stating invariants over every
sequence of operations. -/

inductive StoreOp where
  | create (dmpId : String) (dmp : Doc) (version : String)
      (includeExtensions : Bool)
  | update (dmpId : String) (dmp : Doc) (gracePeriodInMS : Int)
      (includeExtensions : Bool)
  | tombstone (dmpId : String) (includeExtensions : Bool)

/-- The store an operation leaves behind (failed calls leave the store
as-is, which is the pair's first component in every case). -/
def applyOp (ctx : Ctx) (s : Store) : StoreOp → Store
  | StoreOp.create dmpId dmp v incl => (createDMP ctx s dmpId dmp v incl).1
  | StoreOp.update dmpId dmp g incl => (updateDMP ctx s dmpId dmp g incl).1
  | StoreOp.tombstone dmpId incl => (tombstoneDMP ctx s dmpId incl).1

/-- Run a sequence of operations left to right. -/
def applyOps (ctx : Ctx) : Store → List StoreOp → Store
  | s, [] => s
  | s, op :: ops => applyOps ctx (applyOp ctx s op) ops

/-- The version token under which `updateDMP`, run on store `s`, would
snapshot the current latest: the read latest's own `modified` value (the
`version` argument of the `createDMP(... latest.dmp, latest.dmp.modified)`
call, src/rds.ts:868-874).  When the read yields nothing the update throws
before writing, so the returned token is irrelevant; `DMP_LATEST_VERSION`
(the callee's parameter default) is returned for definiteness. -/
def updSnapToken (ctx : Ctx) (s : Store) (dmpId : String) : String :=
  match getDMPs ctx s dmpId (some DMP_LATEST_VERSION) true with
  | Except.ok (latest :: _) => jsVersionArg (lookupKey latest "modified")
  | _ => DMP_LATEST_VERSION

/-- No operation of the sequence re-targets the version token `tok`: no
`createDMP` names it as its `version` argument, and no `updateDMP` runs at
a moment when the current latest's `modified` renders `tok` (in which case
its snapshot write would land on that token). -/
def avoidsToken (ctx : Ctx) (tok : String) : Store → List StoreOp → Bool
  | _, [] => true
  | s, op :: ops =>
    (match op with
      | StoreOp.create _ _ v _ => !(v == tok)
      | StoreOp.update dmpId _ _ _ => !(updSnapToken ctx s dmpId == tok)
      | StoreOp.tombstone _ _ => true) &&
      avoidsToken ctx tok (applyOp ctx s op) ops

/-! Facts about the key builders, at the character-list level. -/

theorem string_data_append (a b : String) : (a ++ b).data = a.data ++ b.data := by
  cases a
  cases b
  rfl

theorem versionToSK_data (v : String) :
    (versionToSK v).data =
      'V' :: 'E' :: 'R' :: 'S' :: 'I' :: 'O' :: 'N' :: '#' :: v.data := by
  cases v
  rfl

theorem versionToExtensionSK_data (v : String) :
    (versionToExtensionSK v).data =
      'E' :: 'X' :: 'T' :: 'E' :: 'N' :: 'S' :: 'I' :: 'O' :: 'N' :: '#' :: v.data := by
  cases v
  rfl

theorem versionToSK_inj {a b : String} (h : versionToSK a = versionToSK b) :
    a = b := by
  have hd : (versionToSK a).data = (versionToSK b).data := by rw [h]
  rw [versionToSK_data, versionToSK_data] at hd
  simp only [List.cons.injEq, true_and] at hd
  cases a
  cases b
  exact congrArg String.mk hd

theorem versionToExtensionSK_inj {a b : String}
    (h : versionToExtensionSK a = versionToExtensionSK b) : a = b := by
  have hd : (versionToExtensionSK a).data = (versionToExtensionSK b).data := by rw [h]
  rw [versionToExtensionSK_data, versionToExtensionSK_data] at hd
  simp only [List.cons.injEq, true_and] at hd
  cases a
  cases b
  exact congrArg String.mk hd

theorem versionToSK_ne_extensionSK (a b : String) :
    versionToSK a ≠ versionToExtensionSK b := by
  intro h
  have hd : (versionToSK a).data = (versionToExtensionSK b).data := by rw [h]
  rw [versionToSK_data, versionToExtensionSK_data] at hd
  exact absurd (List.head_eq_of_cons_eq hd) (by decide)

theorem stripSchemeL_https (rest : List Char) :
    stripSchemeL ('h' :: 't' :: 't' :: 'p' :: 's' :: ':' :: '/' :: '/' :: rest) = rest := by
  have hh : isWordChar 'h' = true := by decide
  have ht : isWordChar 't' = true := by decide
  have hp : isWordChar 'p' = true := by decide
  have hs : isWordChar 's' = true := by decide
  have hc : isWordChar ':' = false := by decide
  simp [stripSchemeL, List.takeWhile_cons, hh, ht, hp, hs, hc]

theorem dmpIdToPK_https (rest : String) :
    dmpIdToPK ("https://" ++ rest) =
      ⟨'D' :: 'M' :: 'P' :: '#' :: rest.data⟩ := by
  apply congrArg String.mk
  have hd : ("https://" ++ rest).data =
      'h' :: 't' :: 't' :: 'p' :: 's' :: ':' :: '/' :: '/' :: rest.data := by
    rw [string_data_append]
    rfl
  simp [dmpIdToPK, hd, stripSchemeL_https]

theorem pkToDmpId_of_dmp_pk (xs : List Char) :
    pkToDmpId ⟨'D' :: 'M' :: 'P' :: '#' :: xs⟩ =
      ⟨'h' :: 't' :: 't' :: 'p' :: 's' :: ':' :: '/' :: '/' :: xs⟩ := by
  apply congrArg String.mk
  have hpre : (['D', 'M', 'P', '#']).isPrefixOf ('D' :: 'M' :: 'P' :: '#' :: xs) = true := by
    simp [List.isPrefixOf]
  simp [pkToDmpId, replaceFirst, replaceFirstL, hpre]

/-! Laws of the splitter. -/

@[simp] theorem lookupKey_nil {α : Type} (k : String) :
    lookupKey ([] : List (String × α)) k = none := rfl

theorem lookupKey_cons {α : Type} (p : String × α) (l : List (String × α))
    (k : String) :
    lookupKey (p :: l) k = if p.1 = k then some p.2 else lookupKey l k := by
  by_cases h : p.1 = k <;> simp [lookupKey, List.find?_cons, h]

@[simp] theorem hasKey_nil {α : Type} (k : String) :
    hasKey ([] : List (String × α)) k = false := rfl

theorem hasKey_cons {α : Type} (p : String × α) (l : List (String × α))
    (k : String) :
    hasKey (p :: l) k = if p.1 = k then true else hasKey l k := by
  by_cases h : p.1 = k <;> simp [hasKey, h]

@[simp] theorem pick_nil {α : Type} (obj : List (String × α)) :
    pick obj [] = [] := rfl

theorem pick_cons {α : Type} (obj : List (String × α)) (k' : String)
    (ks : List String) :
    pick obj (k' :: ks) =
      (match lookupKey obj k' with
        | some v => (k', v) :: pick obj ks
        | none => pick obj ks) := by
  cases h : lookupKey obj k' <;> simp [pick, List.filterMap_cons, h]

theorem lookupKey_pick {α : Type} (obj : List (String × α)) (ks : List String)
    (k : String) :
    lookupKey (pick obj ks) k = if k ∈ ks then lookupKey obj k else none := by
  induction ks with
  | nil => simp
  | cons k' ks ih =>
    rw [pick_cons]
    by_cases hk : k = k'
    · subst hk
      cases hl : lookupKey obj k with
      | none => rw [ih]; by_cases hm : k ∈ ks <;> simp [hm, hl]
      | some v => simp [lookupKey_cons]
    · cases hl : lookupKey obj k' with
      | none => rw [ih]; simp [hk]
      | some v =>
        rw [lookupKey_cons]
        simp only [Ne.symm hk, if_false]
        rw [ih]
        simp [hk]

theorem lookupKey_append {α : Type} (a b : List (String × α)) (k : String) :
    lookupKey (a ++ b) k = (lookupKey a k).orElse (fun _ => lookupKey b k) := by
  simp only [lookupKey, List.find?_append]
  cases a.find? (fun p => p.1 == k) <;> simp

theorem hasKey_iff_isSome {α : Type} (obj : List (String × α)) (k : String) :
    hasKey obj k = (lookupKey obj k).isSome := by
  induction obj with
  | nil => simp
  | cons p obj ih =>
    rw [hasKey_cons, lookupKey_cons]
    by_cases h : p.1 = k <;> simp [h, ih]

theorem mem_keysOf_iff_isSome {α : Type} (obj : List (String × α)) (k : String) :
    k ∈ keysOf obj ↔ (lookupKey obj k).isSome := by
  induction obj with
  | nil => simp [keysOf]
  | cons p obj ih =>
    rw [lookupKey_cons]
    by_cases h : p.1 = k
    · simp [keysOf, h]
    · simp only [keysOf, List.map_cons, List.mem_cons, h, if_false]
      constructor
      · rintro (hh | hh)
        · exact absurd hh.symm h
        · exact ih.mp (by simpa [keysOf] using hh)
      · intro hh
        right
        simpa [keysOf] using ih.mpr hh

theorem lookupKey_filter_not_hasKey {α : Type} (a b : List (String × α))
    (k : String) :
    lookupKey (a.filter (fun p => !(hasKey b p.1))) k =
      if hasKey b k then none else lookupKey a k := by
  induction a with
  | nil => by_cases hb : hasKey b k <;> simp [hb]
  | cons p a ih =>
    rw [List.filter_cons]
    cases hb : hasKey b p.1 with
    | true =>
      simp only [hb, Bool.not_true, Bool.false_eq_true, if_false]
      rw [ih]
      by_cases hbk : hasKey b k
      · simp [hbk]
      · have hpk : p.1 ≠ k := fun h => hbk (h ▸ hb)
        simp [hbk, lookupKey_cons, hpk]
    | false =>
      simp only [hb, Bool.not_false, if_true]
      by_cases hk : p.1 = k
      · subst hk
        simp [lookupKey_cons, hb]
      · rw [lookupKey_cons, if_neg hk, ih, lookupKey_cons, if_neg hk]

theorem lookupKey_objMerge {α : Type} (a b : List (String × α)) (k : String) :
    lookupKey (objMerge a b) k =
      (lookupKey b k).orElse (fun _ => lookupKey a k) := by
  rw [objMerge, lookupKey_append, lookupKey_filter_not_hasKey]
  rw [hasKey_iff_isSome]
  cases hb : lookupKey b k <;> simp [hb]

theorem lookupKey_split_merge {α : Type} (doc : List (String × α)) (k : String) :
    lookupKey (objMerge (splitCore doc) (splitExtension doc)) k =
      lookupKey doc k := by
  rw [lookupKey_objMerge, splitExtension, splitCore, lookupKey_pick, lookupKey_pick]
  by_cases hext : k ∈ EXTENSION_KEYS
  · have hfilter : ¬ k ∈ (keysOf doc).filter (fun kk => !(EXTENSION_KEYS.contains kk)) := by
      simp [List.mem_filter, List.elem_eq_mem]
      intro _
      exact hext
    rw [if_pos hext, if_neg hfilter]
    cases lookupKey doc k <;> rfl
  · rw [if_neg hext]
    by_cases hmem : k ∈ keysOf doc
    · have hfilter : k ∈ (keysOf doc).filter (fun kk => !(EXTENSION_KEYS.contains kk)) := by
        simp [List.mem_filter, List.elem_eq_mem, hmem]
        exact hext
      rw [if_pos hfilter]
      rfl
    · have hfilter : ¬ k ∈ (keysOf doc).filter (fun kk => !(EXTENSION_KEYS.contains kk)) := by
        simp [List.mem_filter]
        intro hm
        exact absurd hm hmem
      rw [if_neg hfilter]
      have hnone : lookupKey doc k = none := by
        cases h : lookupKey doc k with
        | none => rfl
        | some v =>
          exact absurd ((mem_keysOf_iff_isSome doc k).mpr (by simp [h])) hmem
      rw [hnone]
      rfl

theorem keysOf_filter {α : Type} (a : List (String × α)) (q : String → Bool) :
    keysOf (a.filter (fun p => q p.1)) = (keysOf a).filter q := by
  induction a with
  | nil => rfl
  | cons p a ih =>
    rw [List.filter_cons]
    cases hq : q p.1 with
    | true =>
      simp only [if_pos rfl, keysOf, List.map_cons, List.filter_cons, hq, if_true]
      exact congrArg (p.1 :: ·) ih
    | false =>
      simp only [Bool.false_eq_true, if_false, keysOf, List.map_cons,
        List.filter_cons, hq]
      exact ih

theorem keysOf_append {α : Type} (a b : List (String × α)) :
    keysOf (a ++ b) = keysOf a ++ keysOf b := by
  simp [keysOf]

theorem keysOf_pick {α : Type} (obj : List (String × α)) (ks : List String) :
    keysOf (pick obj ks) = ks.filter (fun k => (lookupKey obj k).isSome) := by
  induction ks with
  | nil => rfl
  | cons k ks ih =>
    rw [pick_cons, List.filter_cons]
    cases h : lookupKey obj k with
    | none => simpa [h] using ih
    | some v => simp only [h, Option.isSome_some, if_pos rfl, keysOf,
        List.map_cons]; exact congrArg (k :: ·) ih

theorem decide_mem_keysOf {α : Type} (doc : List (String × α)) (k : String) :
    decide (k ∈ keysOf doc) = (lookupKey doc k).isSome := by
  by_cases h : k ∈ keysOf doc
  · simp [h, (mem_keysOf_iff_isSome doc k).mp h]
  · cases hl : lookupKey doc k with
    | none => simp [h]
    | some v =>
      exact absurd ((mem_keysOf_iff_isSome doc k).mpr (by simp [hl])) h

theorem length_filter_mem_comm (u v : List String) (hu : u.Nodup) (hv : v.Nodup) :
    (u.filter (fun k => decide (k ∈ v))).length =
      (v.filter (fun k => decide (k ∈ u))).length := by
  rw [← List.toFinset_card_of_nodup (hu.filter _),
    ← List.toFinset_card_of_nodup (hv.filter _)]
  congr 1
  ext x
  simp only [List.mem_toFinset, List.mem_filter, decide_eq_true_eq]
  exact and_comm

theorem keysOf_split_merge {α : Type} (doc : List (String × α)) :
    keysOf (objMerge (splitCore doc) (splitExtension doc)) =
      ((keysOf doc).filter (fun k => !(EXTENSION_KEYS.contains k))) ++
        (EXTENSION_KEYS.filter (fun k => (lookupKey doc k).isSome)) := by
  rw [objMerge, keysOf_append,
    keysOf_filter (splitCore doc) (fun k => !(hasKey (splitExtension doc) k))]
  have hext : keysOf (splitExtension doc) =
      EXTENSION_KEYS.filter (fun k => (lookupKey doc k).isSome) := by
    rw [splitExtension, keysOf_pick]
  have hcore : keysOf (splitCore doc) =
      (keysOf doc).filter (fun k => !(EXTENSION_KEYS.contains k)) := by
    rw [splitCore, keysOf_pick]
    apply List.filter_eq_self.mpr
    intro k hk
    have : k ∈ keysOf doc := (List.mem_filter.mp hk).1
    exact (mem_keysOf_iff_isSome doc k).mp this
  rw [hext, hcore]
  congr 1
  apply List.filter_eq_self.mpr
  intro k hk
  have hkext : ¬ k ∈ EXTENSION_KEYS := by
    have := (List.mem_filter.mp hk).2
    simp only [Bool.not_eq_true', List.elem_eq_mem, decide_eq_false_iff_not] at this
    exact this
  rw [hasKey_iff_isSome, splitExtension, lookupKey_pick, if_neg hkext]
  rfl

theorem length_keysOf_split_merge {α : Type} (doc : List (String × α))
    (hnd : (keysOf doc).Nodup) :
    (keysOf (objMerge (splitCore doc) (splitExtension doc))).length =
      (keysOf doc).length := by
  rw [keysOf_split_merge, List.length_append]
  have h1 : EXTENSION_KEYS.filter (fun k => (lookupKey doc k).isSome) =
      EXTENSION_KEYS.filter (fun k => decide (k ∈ keysOf doc)) := by
    apply List.filter_congr
    intro k _
    exact (decide_mem_keysOf doc k).symm
  have h2 : (EXTENSION_KEYS.filter (fun k => decide (k ∈ keysOf doc))).length =
      ((keysOf doc).filter (fun k => decide (k ∈ EXTENSION_KEYS))).length :=
    length_filter_mem_comm EXTENSION_KEYS (keysOf doc) (by decide) hnd
  have h3 : (keysOf doc).filter (fun k => !(EXTENSION_KEYS.contains k)) =
      (keysOf doc).filter (fun k => !(decide (k ∈ EXTENSION_KEYS))) := by
    apply List.filter_congr
    intro k _
    simp [List.contains, List.elem_eq_mem]
  rw [h1, h2, h3]
  rw [add_comm]
  exact (List.length_eq_length_filter_add (fun k => decide (k ∈ EXTENSION_KEYS))).symm

theorem string_mk_data (s : String) : String.mk s.data = s := by
  cases s
  rfl

/-! ## Claim C3: the partition-key encoding and its decoding -/

/-- C3, counterexample: for the scheme-less id `doi.org/11.12345/A1B2C3`
(the very form the source's doc comments use for `dmpId`), decoding the
produced partition key as the code does — `PK.replace('DMP#', 'https://')`
— yields `https://doi.org/11.12345/A1B2C3`, not the original id, so the
encoding is not reversible for every DMP id. -/
theorem C3_roundtrip_counterexample :
    pkToDmpId (dmpIdToPK "doi.org/11.12345/A1B2C3") ≠
      "doi.org/11.12345/A1B2C3" := by
  decide

/-- C3 (amended): `dmpIdToPK` is deterministic (a pure function), and for
every DMP id that begins with `https://` — the scheme the decoder restores
— decoding the produced PK by stripping the `DMP#` record-namespace prefix
and restoring the URI scheme yields the original id; for ids with another
scheme or no scheme the decoder instead returns `https://` followed by the
stripped id. -/
theorem C3_recordKey_roundtrip (rest : String) :
    pkToDmpId (dmpIdToPK ("https://" ++ rest)) = "https://" ++ rest := by
  rw [dmpIdToPK_https, pkToDmpId_of_dmp_pk]
  have h : ("https://" ++ rest).data =
      'h' :: 't' :: 't' :: 'p' :: 's' :: ':' :: '/' :: '/' :: rest.data := by
    rw [string_data_append]
    rfl
  rw [← string_mk_data ("https://" ++ rest), h]

/-! ## Claim C9: the split/merge round-trip law -/

/-- C9: splitting any document along the `EXTENSION_KEYS` allow-list into
its core part (`splitCore`) and extension part (`splitExtension`) and
merging the parts back with the object spread (`objMerge`) yields a
document with the same value at every key and deep-equal to the original
in the sense of `areEqual` (`docsEqual`). -/
theorem C9_split_merge_roundtrip {α : Type} [DecidableEq α]
    (doc : List (String × α)) (hnd : (keysOf doc).Nodup) :
    (∀ k, lookupKey (objMerge (splitCore doc) (splitExtension doc)) k =
        lookupKey doc k) ∧
      docsEqual (objMerge (splitCore doc) (splitExtension doc)) doc = true := by
  constructor
  · exact fun k => lookupKey_split_merge doc k
  · rw [docsEqual, Bool.and_eq_true]
    constructor
    · rw [length_keysOf_split_merge doc hnd]
      simp
    · rw [List.all_eq_true]
      intro k hk
      rw [Bool.and_eq_true]
      have hlook := lookupKey_split_merge doc k
      constructor
      · rw [hasKey_iff_isSome, ← hlook]
        exact (mem_keysOf_iff_isSome _ k).mp hk
      · rw [hlook]
        simp

/-- C9, witness: the round-trip law applied to a concrete document mixing
core fields (`title`, `modified`) and an extension field (`provenance`). -/
theorem C9_split_merge_roundtrip_witness :
    ((keysOf [("title", "T"), ("provenance", "P"), ("modified", "M")]).Nodup) ∧
      docsEqual
        (objMerge
          (splitCore [("title", "T"), ("provenance", "P"), ("modified", "M")])
          (splitExtension
            [("title", "T"), ("provenance", "P"), ("modified", "M")]))
        [("title", "T"), ("provenance", "P"), ("modified", "M")] = true := by
  refine ⟨by decide, ?_⟩
  exact (C9_split_merge_roundtrip
    [("title", "T"), ("provenance", "P"), ("modified", "M")] (by decide)).2

/-! Store adapter laws. -/

theorem beq_pair_false {a b c d : String} (h : ¬(a = b ∧ c = d)) :
    (a == b && c == d) = false := by
  by_cases h1 : a = b
  · by_cases h2 : c = d
    · exact absurd ⟨h1, h2⟩ h
    · simp [h2]
  · simp [h1]

theorem queryExact_putItem_same (s : Store) (it : Item) :
    queryExact (putItem s it) it.PK it.SK = [it] := by
  simp only [putItem, queryExact, List.filter_cons, beq_self_eq_true,
    Bool.and_self, if_true, List.filter_filter]
  have hnil : s.filter
      (fun a => (a.PK == it.PK && a.SK == it.SK) &&
        !(a.PK == it.PK && a.SK == it.SK)) = [] := by
    apply List.filter_eq_nil_iff.mpr
    intro a _
    simp [Bool.and_not_self]
  rw [hnil]

theorem queryExact_putItem_other (s : Store) (it : Item) (pk sk : String)
    (h : ¬(pk = it.PK ∧ sk = it.SK)) :
    queryExact (putItem s it) pk sk = queryExact s pk sk := by
  have hhead : (it.PK == pk && it.SK == sk) = false :=
    beq_pair_false (fun hc => h ⟨hc.1.symm, hc.2.symm⟩)
  simp only [putItem, queryExact, List.filter_cons, hhead,
    Bool.false_eq_true, if_false, List.filter_filter]
  apply List.filter_congr
  intro a _
  cases hap : (a.PK == pk) with
  | false => simp [hap]
  | true =>
    cases has : (a.SK == sk) with
    | false => simp [hap, has]
    | true =>
      have h1 : a.PK = pk := eq_of_beq hap
      have h2 : a.SK = sk := eq_of_beq has
      have hfalse : (a.PK == it.PK && a.SK == it.SK) = false := by
        rw [h1, h2]
        exact beq_pair_false h
      simp [hap, has, hfalse]

theorem queryExact_deleteItem_some_same (s : Store) (pk sk : String) :
    queryExact (deleteItem s pk (some sk)) pk sk = [] := by
  simp only [deleteItem, queryExact, List.filter_filter]
  apply List.filter_eq_nil_iff.mpr
  intro a _
  cases hap : (a.PK == pk) with
  | false => simp [hap]
  | true =>
    cases has : (a.SK == sk) with
    | false => simp [hap, has]
    | true =>
      have h2 : a.SK = sk := eq_of_beq has
      simp [hap, has, h2]

theorem queryExact_deleteItem_some_other (s : Store) (pk sk pk' sk' : String)
    (h : ¬(pk' = pk ∧ sk' = sk)) :
    queryExact (deleteItem s pk (some sk)) pk' sk' = queryExact s pk' sk' := by
  simp only [deleteItem, queryExact, List.filter_filter]
  apply List.filter_congr
  intro a _
  cases hap : (a.PK == pk') with
  | false => simp [hap]
  | true =>
    cases has : (a.SK == sk') with
    | false => simp [hap, has]
    | true =>
      have h1 : a.PK = pk' := eq_of_beq hap
      have h2 : a.SK = sk' := eq_of_beq has
      simp [hap, has]
      by_cases hpp : a.PK = pk
      · right
        intro he
        exact h ⟨by rw [← h1, hpp], by rw [← h2, ← he]⟩
      · left
        exact hpp

theorem deleteItem_none (s : Store) (pk : String) :
    deleteItem s pk none = s := by
  apply List.filter_eq_self.mpr
  intro a _
  have hn : ((none : Option String) == some a.SK) = false := rfl
  simp [hn]

theorem length_insertBy {α : Type} (b : α → α → Bool) (x : α) (l : List α) :
    (insertBy b x l).length = l.length + 1 := by
  induction l with
  | nil => rfl
  | cons y ys ih =>
    rw [insertBy]
    by_cases hb : b x y
    · simp [hb]
    · simp [hb, ih]

theorem length_sortBy {α : Type} (b : α → α → Bool) (l : List α) :
    (sortBy b l).length = l.length := by
  induction l with
  | nil => rfl
  | cons x xs ih => rw [sortBy, length_insertBy, ih, List.length_cons]

theorem sortBy_singleton {α : Type} (b : α → α → Bool) (x : α) :
    sortBy b [x] = [x] := rfl

theorem mapM_singleton {ε α β : Type} (f : α → Except ε β) (x : α) (y : β)
    (h : f x = Except.ok y) : List.mapM f [x] = Except.ok [y] := by
  unfold List.mapM List.mapM.loop
  rw [h]
  rfl

theorem mapM_ok {ε α β : Type} (f : α → Except ε β) (l : List α)
    (h : ∀ x ∈ l, ∃ y, f x = Except.ok y) :
    ∃ l', l.mapM f = Except.ok l' := by
  induction l with
  | nil => exact ⟨[], rfl⟩
  | cons x xs ih =>
    obtain ⟨y, hy⟩ := h x (by simp)
    obtain ⟨l', hl'⟩ := ih (fun a ha => h a (by simp [ha]))
    refine ⟨y :: l', ?_⟩
    rw [List.mapM_cons, hy, hl']
    rfl

/-! Laws of `setKey` and the exact-version read paths. -/

theorem lookupKey_filter_ne_key (d : Doc) (k k' : String) :
    lookupKey (d.filter (fun p => !(p.1 == k))) k' =
      if k' = k then none else lookupKey d k' := by
  induction d with
  | nil => by_cases h : k' = k <;> simp [h]
  | cons p d ih =>
    rw [List.filter_cons]
    by_cases hp : p.1 = k
    · simp only [hp, beq_self_eq_true, Bool.not_true, Bool.false_eq_true,
        if_false]
      rw [ih]
      by_cases hk : k' = k
      · rw [if_pos hk, if_pos hk]
      · rw [if_neg hk, if_neg hk, lookupKey_cons,
          if_neg (show ¬ p.1 = k' from fun he => hk (he.symm.trans hp))]
    · have hb : (p.1 == k) = false := by simp [hp]
      simp only [hb, Bool.not_false, if_true]
      rw [lookupKey_cons, ih]
      by_cases hk : k' = k
      · rw [if_pos hk, if_pos hk,
          if_neg (show ¬ p.1 = k' from fun he => hp (he.trans hk))]
      · rw [if_neg hk, if_neg hk, lookupKey_cons]

theorem lookupKey_setKey_ne (d : Doc) (k k' : String) (v : Value)
    (h : k' ≠ k) :
    lookupKey (setKey d k v) k' = lookupKey d k' := by
  rw [setKey, lookupKey_append, lookupKey_filter_ne_key, if_neg h,
    lookupKey_cons]
  simp [Ne.symm h]

theorem lookupKey_setKey_same (d : Doc) (k : String) (v : Value) :
    lookupKey (setKey d k v) k = some v := by
  rw [setKey, lookupKey_append, lookupKey_filter_ne_key, if_pos rfl,
    lookupKey_cons]
  simp

theorem queryExact_mem (s : Store) (pk sk : String) (it : Item)
    (h : it ∈ queryExact s pk sk) : it.PK = pk ∧ it.SK = sk := by
  rw [queryExact, List.mem_filter] at h
  obtain ⟨-, hpred⟩ := h
  rw [Bool.and_eq_true] at hpred
  exact ⟨eq_of_beq hpred.1, eq_of_beq hpred.2⟩

theorem replaceFirst_versionSK (v : String) :
    replaceFirst (versionToSK v) "VERSION#" "" = v := by
  rw [replaceFirst]
  have hd : (versionToSK v).data =
      'V' :: 'E' :: 'R' :: 'S' :: 'I' :: 'O' :: 'N' :: '#' :: v.data :=
    versionToSK_data v
  rw [hd]
  have hpre : ("VERSION#".data).isPrefixOf
      ('V' :: 'E' :: 'R' :: 'S' :: 'I' :: 'O' :: 'N' :: '#' :: v.data) = true := by
    simp [List.isPrefixOf]
  rw [replaceFirstL]
  · rw [if_pos hpre]
    simp only [List.drop_succ_cons]
    rw [show ("VERSION#".data).length = 8 from rfl]
    simp only [List.drop]
    rw [show ([] : List Char) ++ v.data = v.data from List.nil_append _]

theorem getDMPVersions_ok (s : Store) (dmpId : String)
    (h : (trimWS dmpId == "") = false) :
    ∃ l, getDMPVersions s dmpId = Except.ok l := by
  simp only [getDMPVersions, h, Bool.false_eq_true, if_false]
  exact ⟨_, rfl⟩

theorem attachVersionIndex_ok (ctx : Ctx) (s : Store) (dmpId : String)
    (it : Item) (h : (trimWS dmpId == "") = false) :
    ∃ d, attachVersionIndex ctx s dmpId it = Except.ok d := by
  obtain ⟨vl, hvl⟩ := getDMPVersions_ok s dmpId h
  simp only [attachVersionIndex, hvl]
  by_cases hlen : (vl.length == 0) = true
  · exact ⟨it.attrs, by rw [if_pos hlen]⟩
  · exact ⟨setKey it.attrs "version"
      (Value.vVersionIndex (mkVersionIndexAux ctx.domainName dmpId 0 vl)),
      by rw [if_neg hlen]⟩

theorem getDMPExtensions_ok (ctx : Ctx) (s : Store) (dmpId : String)
    (v : Option String) (h : (trimWS dmpId == "") = false) :
    ∃ l, getDMPExtensions ctx s dmpId v = Except.ok l := by
  simp only [getDMPExtensions, h, Bool.false_eq_true, if_false]
  apply mapM_ok
  intro it _
  exact attachVersionIndex_ok ctx s dmpId it h

theorem mergeItemWithExtensions_ok (ctx : Ctx) (s : Store) (dmpId : String)
    (it : Item) (h : (trimWS dmpId == "") = false) :
    ∃ d, mergeItemWithExtensions ctx s dmpId it = Except.ok d := by
  obtain ⟨el, hel⟩ := getDMPExtensions_ok ctx s dmpId
    (some (replaceFirst it.SK "VERSION#" "")) h
  simp only [mergeItemWithExtensions, hel]
  cases el with
  | nil => exact ⟨it.attrs, rfl⟩
  | cons e rest => exact ⟨objMerge it.attrs e, rfl⟩

theorem getDMPs_ok (ctx : Ctx) (s : Store) (dmpId : String)
    (v : Option String) (incl : Bool) (h : (trimWS dmpId == "") = false) :
    ∃ l, getDMPs ctx s dmpId v incl = Except.ok l := by
  obtain ⟨items, hitems⟩ : ∃ items : List Item, (match v with
      | some w =>
        if w == "" then queryPrefix s (dmpIdToPK dmpId) DMP_VERSION_PREFIX
        else queryExact s (dmpIdToPK dmpId) (versionToSK w)
      | none => queryPrefix s (dmpIdToPK dmpId) DMP_VERSION_PREFIX) = items :=
    ⟨(match v with
      | some w =>
        if w == "" then queryPrefix s (dmpIdToPK dmpId) DMP_VERSION_PREFIX
        else queryExact s (dmpIdToPK dmpId) (versionToSK w)
      | none => queryPrefix s (dmpIdToPK dmpId) DMP_VERSION_PREFIX), rfl⟩
  simp only [getDMPs, h, Bool.false_eq_true, if_false, hitems]
  by_cases hlen : (items.length == 0) = true
  · exact ⟨[], by rw [if_pos hlen]⟩
  · rw [if_neg hlen]
    cases incl with
    | false =>
      simp only [Bool.false_eq_true, if_false]
      exact ⟨_, rfl⟩
    | true =>
      simp only [if_true]
      obtain ⟨l', hl'⟩ := mapM_ok (mergeItemWithExtensions ctx s dmpId)
        (sortBy (fun a b : Item => strLt b.SK a.SK) items)
        (fun it _ => mergeItemWithExtensions_ok ctx s dmpId it h)
      rw [hl']
      exact ⟨l', rfl⟩

theorem getDMPExtensions_exact_single (ctx : Ctx) (s : Store)
    (dmpId v : String) (ite : Item)
    (hid : (trimWS dmpId == "") = false)
    (hv : (v == "") = false)
    (hext : queryExact s (dmpIdToPK dmpId) (versionToExtensionSK v) = [ite]) :
    ∃ extr, getDMPExtensions ctx s dmpId (some v) = Except.ok [extr] ∧
      ∀ k, k ≠ "version" → lookupKey extr k = lookupKey ite.attrs k := by
  simp only [getDMPExtensions, hid, Bool.false_eq_true, if_false, hv, hext]
  rw [sortBy_singleton]
  obtain ⟨vl, hvl⟩ := getDMPVersions_ok s dmpId hid
  by_cases hlen : (vl.length == 0) = true
  · refine ⟨ite.attrs, ?_, fun k _ => rfl⟩
    have hb : attachVersionIndex ctx s dmpId ite = Except.ok ite.attrs := by
      simp only [attachVersionIndex, hvl]
      rw [if_pos hlen]
    rw [mapM_singleton _ _ _ hb]
  · refine ⟨setKey ite.attrs "version"
      (Value.vVersionIndex (mkVersionIndexAux ctx.domainName dmpId 0 vl)),
      ?_, fun k hk => lookupKey_setKey_ne _ _ _ _ hk⟩
    have hb : attachVersionIndex ctx s dmpId ite = Except.ok
        (setKey ite.attrs "version"
          (Value.vVersionIndex (mkVersionIndexAux ctx.domainName dmpId 0 vl))) := by
      simp only [attachVersionIndex, hvl]
      rw [if_neg hlen]
    rw [mapM_singleton _ _ _ hb]

theorem getDMPs_exact_single (ctx : Ctx) (s : Store) (dmpId v : String)
    (itc ite : Item)
    (hid : (trimWS dmpId == "") = false)
    (hv : (v == "") = false)
    (hcore : queryExact s (dmpIdToPK dmpId) (versionToSK v) = [itc])
    (hext : queryExact s (dmpIdToPK dmpId) (versionToExtensionSK v) = [ite]) :
    ∃ extr, getDMPs ctx s dmpId (some v) true =
        Except.ok [objMerge itc.attrs extr] ∧
      ∀ k, k ≠ "version" → lookupKey extr k = lookupKey ite.attrs k := by
  have hmem : itc ∈ queryExact s (dmpIdToPK dmpId) (versionToSK v) := by
    rw [hcore]
    exact List.mem_singleton.mpr rfl
  have hsk : itc.SK = versionToSK v := (queryExact_mem s _ _ itc hmem).2
  obtain ⟨extr, hgx, hlk⟩ :=
    getDMPExtensions_exact_single ctx s dmpId v ite hid hv hext
  refine ⟨extr, ?_, hlk⟩
  simp only [getDMPs, hid, Bool.false_eq_true, if_false, hv, hcore]
  rw [sortBy_singleton]
  have hbody : mergeItemWithExtensions ctx s dmpId itc =
      Except.ok (objMerge itc.attrs extr) := by
    simp only [mergeItemWithExtensions, hsk, replaceFirst_versionSK, hgx]
  rw [mapM_singleton _ _ _ hbody]
  have h1 : (([itc] : List Item).length == 0) = false := rfl
  simp [h1]

theorem getDMPs_exact_none (ctx : Ctx) (s : Store) (dmpId v : String)
    (incl : Bool)
    (hid : (trimWS dmpId == "") = false)
    (hv : (v == "") = false)
    (hcore : queryExact s (dmpIdToPK dmpId) (versionToSK v) = []) :
    getDMPs ctx s dmpId (some v) incl = Except.ok [] := by
  simp only [getDMPs, hid, Bool.false_eq_true, if_false, hv, hcore]
  rfl

/-! ## Claim C1: deleteDMP and the partition-key-only delete -/

/-- C1 (evaluating the code at the failing input): for an unregistered
record with a `latest` core and extension item, `deleteDMP` "succeeds" —
it returns the pre-delete document — but its single `DeleteItemCommand`
carries only the partition key, which matches no item of the
composite-key table, so the store still holds every item and a subsequent
`DMPExists` is still true, where the claim (and the function's own doc
comment, "Delete the specified DMP metadata record and any associated DMP
Tool extension records ... Delete all records with that DMP ID") requires
every item of the partition gone and `DMPExists` false. -/
theorem C1_deleteDMP_leaves_items :
    (deleteDMP ctx0 store0 dmpId0 true).1 = store0 ∧
      isOkE (deleteDMP ctx0 store0 dmpId0 true).2 = true ∧
      DMPExists (deleteDMP ctx0 store0 dmpId0 true).1 dmpId0 = true := by
  decide

/-! ## Claim C2: the stale-write rejection boundary -/

/-- C2, counterexample: an incoming document whose `modified` exactly
equals the current latest's `modified` is accepted by `updateDMP` (the
code rejects only `latest.modified > incoming.modified`, a strict
comparison), so the claim's "less than or equal is rejected; in
particular an exactly equal `modified` is rejected" is false on the
code. -/
theorem C2_equal_modified_accepted :
    lookupKey incomingEq0 "modified" = lookupKey coreAttrs0 "modified" ∧
      isOkE (updateDMP ctx0 store0 dmpId0 incomingEq0 7200000 true).2 = true := by
  decide

/-! ## Claim C8: immutability of written snapshots -/

/-- C8, counterexample: a snapshot item written under the timestamp token
`2020-01-01T00:00:00Z` is mutated by a single subsequent store operation:
`createDMP` called with that token as its `version` skips the
only-for-`latest` existence check and overwrites the item (its `title`
changes from `A` to `B`). -/
theorem C8_snapshot_overwritten :
    queryExact snapStore0 (dmpIdToPK dmpId0)
        (versionToSK "2020-01-01T00:00:00Z") =
      [⟨dmpIdToPK dmpId0, versionToSK "2020-01-01T00:00:00Z",
        [("title", Value.vStr "A")]⟩] ∧
      queryExact
          (createDMP ctx0 snapStore0 dmpId0 [("title", Value.vStr "B")]
            "2020-01-01T00:00:00Z" true).1
          (dmpIdToPK dmpId0) (versionToSK "2020-01-01T00:00:00Z") =
        [⟨dmpIdToPK dmpId0, versionToSK "2020-01-01T00:00:00Z",
          [("title", Value.vStr "B")]⟩] := by
  decide

/-! ## Claim C7: tombstone preconditions -/

/-- C7: `tombstoneDMP` raises a precondition error unless the current
latest's extension has `registered` set (first conjunct: an unregistered
record — the merged latest's `registered` comes from the extension item —
is rejected), and it also fails when no latest version exists (second
conjunct); in either failure case the store is returned unchanged, i.e. no
item was written or deleted. -/
theorem C7_tombstone_preconditions :
    (∀ (ctx : Ctx) (s : Store) (dmpId : String) (itc ite : Item)
        (incl : Bool),
      (trimWS dmpId == "") = false →
      queryExact s (dmpIdToPK dmpId) (versionToSK DMP_LATEST_VERSION) =
        [itc] →
      queryExact s (dmpIdToPK dmpId)
        (versionToExtensionSK DMP_LATEST_VERSION) = [ite] →
      truthyValue (lookupKey ite.attrs "registered") = false →
      lookupKey itc.attrs "registered" = none →
      (tombstoneDMP ctx s dmpId incl).1 = s ∧
        isOkE (tombstoneDMP ctx s dmpId incl).2 = false) ∧
    (∀ (ctx : Ctx) (s : Store) (dmpId : String) (incl : Bool),
      (trimWS dmpId == "") = false →
      queryExact s (dmpIdToPK dmpId) (versionToSK DMP_LATEST_VERSION) = [] →
      (tombstoneDMP ctx s dmpId incl).1 = s ∧
        isOkE (tombstoneDMP ctx s dmpId incl).2 = false) := by
  constructor
  · intro ctx s dmpId itc ite incl hid hcore hext hnoregE hnoregC
    obtain ⟨extr, hg, hlk⟩ := getDMPs_exact_single ctx s dmpId
      DMP_LATEST_VERSION itc ite hid rfl hcore hext
    have hreg : truthyValue
        (lookupKey (objMerge itc.attrs extr) "registered") = false := by
      rw [lookupKey_objMerge, hlk "registered" (by decide), hnoregC]
      cases hr : lookupKey ite.attrs "registered" with
      | none => rfl
      | some w =>
        rw [hr] at hnoregE
        simpa using hnoregE
    simp only [tombstoneDMP, hid, Bool.false_eq_true, if_false, hg,
      List.head?_cons, hreg]
    exact ⟨trivial, rfl⟩
  · intro ctx s dmpId incl hid hcore
    have hg := getDMPs_exact_none ctx s dmpId DMP_LATEST_VERSION true hid rfl
      hcore
    simp only [tombstoneDMP, hid, Bool.false_eq_true, if_false, hg,
      List.head?_nil]
    exact ⟨trivial, rfl⟩

/-- C7, witness: the unregistered fixture record is rejected with the
store unchanged. -/
theorem C7_tombstone_preconditions_witness :
    (tombstoneDMP ctx0 store0 dmpId0 true).1 = store0 ∧
      isOkE (tombstoneDMP ctx0 store0 dmpId0 true).2 = false := by
  exact C7_tombstone_preconditions.1 ctx0 store0 dmpId0
    ⟨dmpIdToPK dmpId0, versionToSK DMP_LATEST_VERSION, coreAttrs0⟩
    ⟨dmpIdToPK dmpId0, versionToExtensionSK DMP_LATEST_VERSION, extAttrs0⟩
    true (by decide) (by decide) (by decide) (by decide) (by decide)

/-- C2 (amended): `updateDMP` rejects the update with an error, leaving
the store unchanged, whenever the incoming document's `modified` is
strictly less than the current latest's `modified` (the code's comparison
`latest.modified > incoming.modified` is strict, so an exactly equal
incoming `modified` is not rejected — see the counterexample). -/
theorem C2_stale_write_rejected (ctx : Ctx) (s : Store) (dmpId : String)
    (dmp : Doc) (g : Int) (incl : Bool) (itc ite : Item) (a b : String)
    (hid : (dmpId == "") = false)
    (hidt : (trimWS dmpId == "") = false)
    (hcore : queryExact s (dmpIdToPK dmpId) (versionToSK DMP_LATEST_VERSION) =
      [itc])
    (hext : queryExact s (dmpIdToPK dmpId)
      (versionToExtensionSK DMP_LATEST_VERSION) = [ite])
    (hmodc : lookupKey itc.attrs "modified" = some (Value.vStr a))
    (hmode : lookupKey ite.attrs "modified" = none)
    (hmodi : lookupKey dmp "modified" = some (Value.vStr b))
    (hlt : strLt b a = true) :
    (updateDMP ctx s dmpId dmp g incl).1 = s ∧
      isOkE (updateDMP ctx s dmpId dmp g incl).2 = false := by
  obtain ⟨extr, hg, hlk⟩ := getDMPs_exact_single ctx s dmpId
    DMP_LATEST_VERSION itc ite hidt rfl hcore hext
  have hmodL : lookupKey (objMerge itc.attrs extr) "modified" =
      some (Value.vStr a) := by
    rw [lookupKey_objMerge, hlk "modified" (by decide), hmode]
    simpa [Option.orElse] using hmodc
  have hcond : (truthyValue (lookupKey (objMerge itc.attrs extr) "tombstoned")
      || jsGtStr (lookupKey (objMerge itc.attrs extr) "modified")
        (lookupKey dmp "modified")) = true := by
    rw [hmodL, hmodi]
    simp [jsGtStr, hlt]
  simp only [updateDMP, hid, Bool.false_eq_true, if_false, hg,
    List.head?_cons, hcond, if_true]
  exact ⟨trivial, rfl⟩

/-- C2, witness: the amended rejection applied to the fixture store and a
strictly older incoming document. -/
theorem C2_stale_write_rejected_witness :
    (updateDMP ctx0 store0 dmpId0 incomingStale0 7200000 true).1 = store0 ∧
      isOkE (updateDMP ctx0 store0 dmpId0 incomingStale0 7200000 true).2 =
        false := by
  exact C2_stale_write_rejected ctx0 store0 dmpId0 incomingStale0 7200000 true
    ⟨dmpIdToPK dmpId0, versionToSK DMP_LATEST_VERSION, coreAttrs0⟩
    ⟨dmpIdToPK dmpId0, versionToExtensionSK DMP_LATEST_VERSION, extAttrs0⟩
    "2025-01-01T00:00:00Z" "2024-12-31T00:00:00Z"
    (by decide) (by decide) (by decide) (by decide) (by decide) (by decide)
    (by decide) (by decide)

theorem versionToSK_ne {a b : String} (h : a ≠ b) :
    versionToSK a ≠ versionToSK b :=
  fun he => h (versionToSK_inj he)

theorem versionToExtensionSK_ne {a b : String} (h : a ≠ b) :
    versionToExtensionSK a ≠ versionToExtensionSK b :=
  fun he => h (versionToExtensionSK_inj he)

/-! ## Claim C6: the observable effects of tombstoning -/

/-- C6: after a successful `tombstoneDMP`, reading version `latest`
returns nothing, and reading version `tombstone` returns a merged document
whose `title` is the original title prefixed with `OBSOLETE: ` and whose
extension carries a `tombstoned` timestamp (a truthy `tombstoned` field).
The hypotheses pin the record read: one latest core item (whose `title` is
the string `ttl`) and one latest extension item (registered, with no
`title` of its own — the splitter never writes one), and a well-formed
clock. -/
theorem C6_tombstone_effects (ctx : Ctx) (s : Store) (dmpId : String)
    (itc ite : Item) (r ttl now : String)
    (hid : (trimWS dmpId == "") = false)
    (hcore : queryExact s (dmpIdToPK dmpId) (versionToSK DMP_LATEST_VERSION) =
      [itc])
    (hext : queryExact s (dmpIdToPK dmpId)
      (versionToExtensionSK DMP_LATEST_VERSION) = [ite])
    (hreg : lookupKey ite.attrs "registered" = some (Value.vStr r))
    (hr : (r == "") = false)
    (ht : lookupKey itc.attrs "title" = some (Value.vStr ttl))
    (htE : lookupKey ite.attrs "title" = none)
    (hnow : ctx.nowStr = some now)
    (hnowne : (now == "") = false) :
    getDMPs ctx (tombstoneDMP ctx s dmpId true).1 dmpId
        (some DMP_LATEST_VERSION) true = Except.ok [] ∧
      ∃ L, getDMPs ctx (tombstoneDMP ctx s dmpId true).1 dmpId
          (some DMP_TOMBSTONE_VERSION) true = Except.ok [L] ∧
        lookupKey L "title" = some (Value.vStr ("OBSOLETE: " ++ ttl)) ∧
        truthyValue (lookupKey L "tombstoned") = true := by
  obtain ⟨extr, hg, hlk⟩ := getDMPs_exact_single ctx s dmpId
    DMP_LATEST_VERSION itc ite hid rfl hcore hext
  have hregL : truthyValue
      (lookupKey (objMerge itc.attrs extr) "registered") = true := by
    rw [lookupKey_objMerge, hlk "registered" (by decide), hreg]
    simp [Option.orElse, truthyValue, hr]
  have htitleL : lookupKey (objMerge itc.attrs extr) "title" =
      some (Value.vStr ttl) := by
    rw [lookupKey_objMerge, hlk "title" (by decide), htE]
    simpa [Option.orElse] using ht
  have hstep : (tombstoneDMP ctx s dmpId true).1 =
      deleteItem
        (putItem
          (deleteItem
            (putItem s
              ⟨dmpIdToPK dmpId, versionToSK DMP_TOMBSTONE_VERSION,
                setKey (setKey (splitCore (objMerge itc.attrs extr)) "title"
                    (Value.vStr ("OBSOLETE: " ++
                      jsToString (lookupKey (objMerge itc.attrs extr) "title"))))
                  "modified" (Value.vStr now)⟩)
            (dmpIdToPK dmpId) (some (versionToSK DMP_LATEST_VERSION)))
          ⟨dmpIdToPK dmpId, versionToExtensionSK DMP_TOMBSTONE_VERSION,
            setKey (splitExtension (objMerge itc.attrs extr)) "tombstoned"
              (Value.vStr now)⟩)
        (dmpIdToPK dmpId) (some (versionToExtensionSK DMP_LATEST_VERSION)) := by
    simp only [tombstoneDMP, hid, Bool.false_eq_true, if_false, hg,
      List.head?_cons, hregL, if_true, hnow]
    split <;> rfl
  rw [hstep]
  have hq1 : queryExact
      (deleteItem
        (putItem
          (deleteItem
            (putItem s
              ⟨dmpIdToPK dmpId, versionToSK DMP_TOMBSTONE_VERSION,
                setKey (setKey (splitCore (objMerge itc.attrs extr)) "title"
                    (Value.vStr ("OBSOLETE: " ++
                      jsToString (lookupKey (objMerge itc.attrs extr) "title"))))
                  "modified" (Value.vStr now)⟩)
            (dmpIdToPK dmpId) (some (versionToSK DMP_LATEST_VERSION)))
          ⟨dmpIdToPK dmpId, versionToExtensionSK DMP_TOMBSTONE_VERSION,
            setKey (splitExtension (objMerge itc.attrs extr)) "tombstoned"
              (Value.vStr now)⟩)
        (dmpIdToPK dmpId) (some (versionToExtensionSK DMP_LATEST_VERSION)))
      (dmpIdToPK dmpId) (versionToSK DMP_LATEST_VERSION) = [] := by
    rw [queryExact_deleteItem_some_other _ _ _ _ _
      (fun hc => versionToSK_ne_extensionSK DMP_LATEST_VERSION
        DMP_LATEST_VERSION hc.2)]
    rw [queryExact_putItem_other _ _ _ _
      (fun hc => versionToSK_ne_extensionSK DMP_LATEST_VERSION
        DMP_TOMBSTONE_VERSION hc.2)]
    exact queryExact_deleteItem_some_same _ _ _
  have hq2 : queryExact
      (deleteItem
        (putItem
          (deleteItem
            (putItem s
              ⟨dmpIdToPK dmpId, versionToSK DMP_TOMBSTONE_VERSION,
                setKey (setKey (splitCore (objMerge itc.attrs extr)) "title"
                    (Value.vStr ("OBSOLETE: " ++
                      jsToString (lookupKey (objMerge itc.attrs extr) "title"))))
                  "modified" (Value.vStr now)⟩)
            (dmpIdToPK dmpId) (some (versionToSK DMP_LATEST_VERSION)))
          ⟨dmpIdToPK dmpId, versionToExtensionSK DMP_TOMBSTONE_VERSION,
            setKey (splitExtension (objMerge itc.attrs extr)) "tombstoned"
              (Value.vStr now)⟩)
        (dmpIdToPK dmpId) (some (versionToExtensionSK DMP_LATEST_VERSION)))
      (dmpIdToPK dmpId) (versionToSK DMP_TOMBSTONE_VERSION) =
      [⟨dmpIdToPK dmpId, versionToSK DMP_TOMBSTONE_VERSION,
        setKey (setKey (splitCore (objMerge itc.attrs extr)) "title"
            (Value.vStr ("OBSOLETE: " ++
              jsToString (lookupKey (objMerge itc.attrs extr) "title"))))
          "modified" (Value.vStr now)⟩] := by
    rw [queryExact_deleteItem_some_other _ _ _ _ _
      (fun hc => versionToSK_ne_extensionSK DMP_TOMBSTONE_VERSION
        DMP_LATEST_VERSION hc.2)]
    rw [queryExact_putItem_other _ _ _ _
      (fun hc => versionToSK_ne_extensionSK DMP_TOMBSTONE_VERSION
        DMP_TOMBSTONE_VERSION hc.2)]
    rw [queryExact_deleteItem_some_other _ _ _ _ _
      (fun hc => versionToSK_ne (by decide :
        DMP_TOMBSTONE_VERSION ≠ DMP_LATEST_VERSION) hc.2)]
    exact queryExact_putItem_same _ _
  have hq3 : queryExact
      (deleteItem
        (putItem
          (deleteItem
            (putItem s
              ⟨dmpIdToPK dmpId, versionToSK DMP_TOMBSTONE_VERSION,
                setKey (setKey (splitCore (objMerge itc.attrs extr)) "title"
                    (Value.vStr ("OBSOLETE: " ++
                      jsToString (lookupKey (objMerge itc.attrs extr) "title"))))
                  "modified" (Value.vStr now)⟩)
            (dmpIdToPK dmpId) (some (versionToSK DMP_LATEST_VERSION)))
          ⟨dmpIdToPK dmpId, versionToExtensionSK DMP_TOMBSTONE_VERSION,
            setKey (splitExtension (objMerge itc.attrs extr)) "tombstoned"
              (Value.vStr now)⟩)
        (dmpIdToPK dmpId) (some (versionToExtensionSK DMP_LATEST_VERSION)))
      (dmpIdToPK dmpId) (versionToExtensionSK DMP_TOMBSTONE_VERSION) =
      [⟨dmpIdToPK dmpId, versionToExtensionSK DMP_TOMBSTONE_VERSION,
        setKey (splitExtension (objMerge itc.attrs extr)) "tombstoned"
          (Value.vStr now)⟩] := by
    rw [queryExact_deleteItem_some_other _ _ _ _ _
      (fun hc => versionToExtensionSK_ne (by decide :
        DMP_TOMBSTONE_VERSION ≠ DMP_LATEST_VERSION) hc.2)]
    exact queryExact_putItem_same _ _
  refine ⟨getDMPs_exact_none ctx _ dmpId DMP_LATEST_VERSION true hid rfl hq1,
    ?_⟩
  obtain ⟨extr2, hg2, hlk2⟩ := getDMPs_exact_single ctx _ dmpId
    DMP_TOMBSTONE_VERSION _ _ hid rfl hq2 hq3
  refine ⟨_, hg2, ?_, ?_⟩
  · rw [lookupKey_objMerge, hlk2 "title" (by decide)]
    show (lookupKey
        (setKey (splitExtension (objMerge itc.attrs extr)) "tombstoned"
          (Value.vStr now)) "title").orElse _ = _
    rw [lookupKey_setKey_ne _ _ _ _ (by decide : "title" ≠ "tombstoned"),
      splitExtension, lookupKey_pick,
      if_neg (by decide : ¬ "title" ∈ EXTENSION_KEYS)]
    show (lookupKey
        (setKey (setKey (splitCore (objMerge itc.attrs extr)) "title"
            (Value.vStr ("OBSOLETE: " ++
              jsToString (lookupKey (objMerge itc.attrs extr) "title"))))
          "modified" (Value.vStr now)) "title") = _
    rw [lookupKey_setKey_ne _ _ _ _ (by decide : "title" ≠ "modified"),
      lookupKey_setKey_same, htitleL]
    rfl
  · rw [lookupKey_objMerge, hlk2 "tombstoned" (by decide),
      lookupKey_setKey_same]
    simp [Option.orElse, truthyValue, hnowne]

/-- C6, witness: tombstoning the registered fixture record. -/
theorem C6_tombstone_effects_witness :
    getDMPs ctx0 (tombstoneDMP ctx0 storeReg0 dmpId0 true).1 dmpId0
        (some DMP_LATEST_VERSION) true = Except.ok [] ∧
      ∃ L, getDMPs ctx0 (tombstoneDMP ctx0 storeReg0 dmpId0 true).1 dmpId0
          (some DMP_TOMBSTONE_VERSION) true = Except.ok [L] ∧
        lookupKey L "title" = some (Value.vStr ("OBSOLETE: " ++ "T")) ∧
        truthyValue (lookupKey L "tombstoned") = true := by
  exact C6_tombstone_effects ctx0 storeReg0 dmpId0
    ⟨dmpIdToPK dmpId0, versionToSK DMP_LATEST_VERSION, coreAttrs0⟩
    ⟨dmpIdToPK dmpId0, versionToExtensionSK DMP_LATEST_VERSION, extAttrsReg0⟩
    "2025-01-02T00:00:00Z" "T" "2025-02-01T00:00:00Z"
    (by decide) (by decide) (by decide) (by decide) (by decide) (by decide)
    (by decide) rfl (by decide)

/-! ## The store effect of a successful update

`updateDMP_shape` pins the latest read and the acceptance conditions and
exhibits the exact sequence of writes a successful update performs: the
optional snapshot pair under the latest's own `modified` token, then the
two `latest` overwrites. -/

theorem updateDMP_shape (ctx : Ctx) (s : Store) (dmpId : String) (dmp : Doc)
    (g : Int) (incl : Bool) (itc : Item) (extr : Doc) (m : String)
    (hid : (dmpId == "") = false)
    (hidt : (trimWS dmpId == "") = false)
    (hg : getDMPs ctx s dmpId (some DMP_LATEST_VERSION) true =
      Except.ok [objMerge itc.attrs extr])
    (hmodL : lookupKey (objMerge itc.attrs extr) "modified" =
      some (Value.vStr m))
    (htombL : truthyValue (lookupKey (objMerge itc.attrs extr) "tombstoned") =
      false)
    (hnotstale : jsGtStr (some (Value.vStr m)) (lookupKey dmp "modified") =
      false)
    (hmlatest : (m == DMP_LATEST_VERSION) = false) :
    ∃ d, updateDMP ctx s dmpId dmp g incl =
      (putItem (putItem
        (if needToVersion ctx.now ctx.toTime (objMerge itc.attrs extr)
            (splitExtension dmp)
            (if (g == 0) = true then DEFAULT_GRACE_PERIOD_MS else g) then
          putItem (putItem s
            ⟨dmpIdToPK dmpId, versionToSK m,
              splitCore (objMerge itc.attrs extr)⟩)
            ⟨dmpIdToPK dmpId, versionToExtensionSK m,
              splitExtension (objMerge itc.attrs extr)⟩
        else s)
        ⟨dmpIdToPK dmpId, versionToSK DMP_LATEST_VERSION, splitCore dmp⟩)
        ⟨dmpIdToPK dmpId, versionToExtensionSK DMP_LATEST_VERSION,
          splitExtension dmp⟩,
      Except.ok d) := by
  have hcond : (truthyValue (lookupKey (objMerge itc.attrs extr) "tombstoned")
      || jsGtStr (some (Value.vStr m)) (lookupKey dmp "modified")) = false := by
    rw [htombL, hnotstale]
    rfl
  simp only [updateDMP, hid, Bool.false_eq_true, if_false, hg,
    List.head?_cons, hmodL, hcond, jsVersionArg, jsToString]
  cases hntv : needToVersion ctx.now ctx.toTime (objMerge itc.attrs extr)
      (splitExtension dmp)
      (if (g == 0) = true then DEFAULT_GRACE_PERIOD_MS else g) with
  | false =>
    simp only [Bool.false_eq_true, if_false]
    obtain ⟨fl, hfl⟩ := getDMPs_ok ctx
      (putItem (putItem s
        ⟨dmpIdToPK dmpId, versionToSK DMP_LATEST_VERSION, splitCore dmp⟩)
        ⟨dmpIdToPK dmpId, versionToExtensionSK DMP_LATEST_VERSION,
          splitExtension dmp⟩)
      dmpId (some DMP_LATEST_VERSION) incl hidt
    rw [hfl]
    exact ⟨fl.head?, rfl⟩
  | true =>
    simp only [if_true, createDMP, hidt, Bool.false_eq_true, if_false,
      hmlatest, Bool.false_and]
    obtain ⟨fl1, hfl1⟩ := getDMPs_ok ctx
      (putItem (putItem s
        ⟨dmpIdToPK dmpId, versionToSK m, splitCore (objMerge itc.attrs extr)⟩)
        ⟨dmpIdToPK dmpId, versionToExtensionSK m,
          splitExtension (objMerge itc.attrs extr)⟩)
      dmpId (some DMP_LATEST_VERSION) true hidt
    rw [hfl1]
    obtain ⟨fl2, hfl2⟩ := getDMPs_ok ctx
      (putItem (putItem
        (putItem (putItem s
          ⟨dmpIdToPK dmpId, versionToSK m,
            splitCore (objMerge itc.attrs extr)⟩)
          ⟨dmpIdToPK dmpId, versionToExtensionSK m,
            splitExtension (objMerge itc.attrs extr)⟩)
        ⟨dmpIdToPK dmpId, versionToSK DMP_LATEST_VERSION, splitCore dmp⟩)
        ⟨dmpIdToPK dmpId, versionToExtensionSK DMP_LATEST_VERSION,
          splitExtension dmp⟩)
      dmpId (some DMP_LATEST_VERSION) incl hidt
    rw [hfl2]
    exact ⟨fl2.head?, rfl⟩

/-! ## Claim C4: the snapshot (versioning) policy of updateDMP -/

/-- C4: a successful `updateDMP` writes a snapshot of the current latest
(under the latest's own `modified` token `m`) if and only if the incoming
extension's `provenance` differs from the current latest's `provenance`
(which the record's extension item carries) or the elapsed time
`Date.now() - new Date(latest.modified).getTime()` exceeds the grace
period; the grace period is the caller's argument `g`, with
`DEFAULT_GRACE_PERIOD_MS = 7200000` as the parameter default and the
fallback when `g` is 0 (falsy). -/
theorem C4_snapshot_policy (ctx : Ctx) (s : Store) (dmpId : String)
    (dmp : Doc) (g : Int) (incl : Bool) (itc ite : Item) (m : String)
    (hid : (dmpId == "") = false)
    (hidt : (trimWS dmpId == "") = false)
    (hcore : queryExact s (dmpIdToPK dmpId) (versionToSK DMP_LATEST_VERSION) =
      [itc])
    (hext : queryExact s (dmpIdToPK dmpId)
      (versionToExtensionSK DMP_LATEST_VERSION) = [ite])
    (hmodc : lookupKey itc.attrs "modified" = some (Value.vStr m))
    (hmode : lookupKey ite.attrs "modified" = none)
    (htombc : lookupKey itc.attrs "tombstoned" = none)
    (htombe : lookupKey ite.attrs "tombstoned" = none)
    (hprovC : lookupKey itc.attrs "provenance" = none)
    (hnotstale : jsGtStr (some (Value.vStr m)) (lookupKey dmp "modified") =
      false)
    (hmlatest : (m == DMP_LATEST_VERSION) = false)
    (hfresh : queryExact s (dmpIdToPK dmpId) (versionToSK m) = []) :
    DEFAULT_GRACE_PERIOD_MS = 7200000 ∧
      ∃ d, (updateDMP ctx s dmpId dmp g incl).2 = Except.ok d ∧
        ((queryExact (updateDMP ctx s dmpId dmp g incl).1 (dmpIdToPK dmpId)
            (versionToSK m) ≠ []) ↔
          (lookupKey dmp "provenance" ≠ lookupKey ite.attrs "provenance" ∨
            ∃ t, ctx.toTime m = some t ∧
              ctx.now - t >
                (if (g == 0) = true then DEFAULT_GRACE_PERIOD_MS else g))) := by
  refine ⟨rfl, ?_⟩
  obtain ⟨extr, hg, hlk⟩ := getDMPs_exact_single ctx s dmpId
    DMP_LATEST_VERSION itc ite hidt rfl hcore hext
  have hmodL : lookupKey (objMerge itc.attrs extr) "modified" =
      some (Value.vStr m) := by
    rw [lookupKey_objMerge, hlk "modified" (by decide), hmode]
    simpa [Option.orElse] using hmodc
  have htombL : truthyValue
      (lookupKey (objMerge itc.attrs extr) "tombstoned") = false := by
    rw [lookupKey_objMerge, hlk "tombstoned" (by decide), htombe]
    simp [Option.orElse, htombc, truthyValue]
  have hprovL : lookupKey (objMerge itc.attrs extr) "provenance" =
      lookupKey ite.attrs "provenance" := by
    rw [lookupKey_objMerge, hlk "provenance" (by decide)]
    cases hpe : lookupKey ite.attrs "provenance" with
    | none => simp [Option.orElse, hprovC]
    | some w => simp [Option.orElse]
  obtain ⟨d, hshape⟩ := updateDMP_shape ctx s dmpId dmp g incl itc extr m
    hid hidt hg hmodL htombL hnotstale hmlatest
  have hm : m ≠ DMP_LATEST_VERSION := by
    intro he
    rw [he] at hmlatest
    simp at hmlatest
  have hres : (updateDMP ctx s dmpId dmp g incl).2 = Except.ok d := by
    rw [hshape]
  refine ⟨d, hres, ?_⟩
  have hiff : (needToVersion ctx.now ctx.toTime (objMerge itc.attrs extr)
      (splitExtension dmp)
      (if (g == 0) = true then DEFAULT_GRACE_PERIOD_MS else g)) = true ↔
      (lookupKey dmp "provenance" ≠ lookupKey ite.attrs "provenance" ∨
        ∃ t, ctx.toTime m = some t ∧
          ctx.now - t >
            (if (g == 0) = true then DEFAULT_GRACE_PERIOD_MS else g)) := by
    have hpe : lookupKey (splitExtension dmp) "provenance" =
        lookupKey dmp "provenance" := by
      rw [splitExtension, lookupKey_pick,
        if_pos (by decide : "provenance" ∈ EXTENSION_KEYS)]
    simp only [needToVersion, hmodL, hprovL, hpe]
    rw [Bool.or_eq_true, decide_eq_true_eq]
    cases htt : ctx.toTime m with
    | none =>
      simp only [htt]
      constructor
      · rintro (h | h)
        · exact Or.inl h
        · simp at h
      · rintro (h | ⟨t, ht, -⟩)
        · exact Or.inl h
        · exact absurd ht (by simp)
    | some t =>
      simp only [htt]
      constructor
      · rintro (h | h)
        · exact Or.inl h
        · exact Or.inr ⟨t, rfl, by simpa using h⟩
      · rintro (h | ⟨t', ht', hgt⟩)
        · exact Or.inl h
        · right
          have hte : t = t' := Option.some_inj.mp ht'
          subst hte
          simpa using hgt
  have hqm : queryExact (updateDMP ctx s dmpId dmp g incl).1 (dmpIdToPK dmpId)
      (versionToSK m) =
      (if needToVersion ctx.now ctx.toTime (objMerge itc.attrs extr)
          (splitExtension dmp)
          (if (g == 0) = true then DEFAULT_GRACE_PERIOD_MS else g) then
        [⟨dmpIdToPK dmpId, versionToSK m, splitCore (objMerge itc.attrs extr)⟩]
      else []) := by
    have hst : (updateDMP ctx s dmpId dmp g incl).1 =
        (putItem (putItem
          (if needToVersion ctx.now ctx.toTime (objMerge itc.attrs extr)
              (splitExtension dmp)
              (if (g == 0) = true then DEFAULT_GRACE_PERIOD_MS else g) then
            putItem (putItem s
              ⟨dmpIdToPK dmpId, versionToSK m,
                splitCore (objMerge itc.attrs extr)⟩)
              ⟨dmpIdToPK dmpId, versionToExtensionSK m,
                splitExtension (objMerge itc.attrs extr)⟩
          else s)
          ⟨dmpIdToPK dmpId, versionToSK DMP_LATEST_VERSION, splitCore dmp⟩)
          ⟨dmpIdToPK dmpId, versionToExtensionSK DMP_LATEST_VERSION,
            splitExtension dmp⟩) := by
      rw [hshape]
    rw [hst]
    rw [queryExact_putItem_other _ _ _ _
      (fun hc => versionToSK_ne_extensionSK m DMP_LATEST_VERSION hc.2)]
    rw [queryExact_putItem_other _ _ _ _
      (fun hc => versionToSK_ne hm hc.2)]
    cases hntv : needToVersion ctx.now ctx.toTime (objMerge itc.attrs extr)
        (splitExtension dmp)
        (if (g == 0) = true then DEFAULT_GRACE_PERIOD_MS else g) with
    | false =>
      simp only [Bool.false_eq_true, if_false]
      exact hfresh
    | true =>
      simp only [if_true]
      rw [queryExact_putItem_other _ _ _ _
        (fun hc => versionToSK_ne_extensionSK m m hc.2)]
      exact queryExact_putItem_same _ _
  rw [hqm]
  cases hntv : needToVersion ctx.now ctx.toTime (objMerge itc.attrs extr)
      (splitExtension dmp)
      (if (g == 0) = true then DEFAULT_GRACE_PERIOD_MS else g) with
  | true =>
    simp only [if_true]
    exact iff_of_true (by simp) (hiff.mp hntv)
  | false =>
    simp only [Bool.false_eq_true, if_false]
    refine iff_of_false (by simp) ?_
    intro hr
    rw [← hiff] at hr
    rw [hntv] at hr
    exact Bool.false_ne_true hr

/-- C4, witness: an update of the fixture record with a changed
`provenance` under the default grace period. -/
theorem C4_snapshot_policy_witness :
    DEFAULT_GRACE_PERIOD_MS = 7200000 ∧
      ∃ d, (updateDMP ctx0 store0 dmpId0 incomingNewProv0 7200000 true).2 =
          Except.ok d ∧
        ((queryExact (updateDMP ctx0 store0 dmpId0 incomingNewProv0 7200000
              true).1 (dmpIdToPK dmpId0)
            (versionToSK "2025-01-01T00:00:00Z") ≠ []) ↔
          (lookupKey incomingNewProv0 "provenance" ≠
              lookupKey extAttrs0 "provenance" ∨
            ∃ t, ctx0.toTime "2025-01-01T00:00:00Z" = some t ∧
              ctx0.now - t >
                (if ((7200000 : Int) == 0) = true then DEFAULT_GRACE_PERIOD_MS
                 else 7200000))) := by
  exact C4_snapshot_policy ctx0 store0 dmpId0 incomingNewProv0 7200000 true
    ⟨dmpIdToPK dmpId0, versionToSK DMP_LATEST_VERSION, coreAttrs0⟩
    ⟨dmpIdToPK dmpId0, versionToExtensionSK DMP_LATEST_VERSION, extAttrs0⟩
    "2025-01-01T00:00:00Z"
    (by decide) (by decide) (by decide) (by decide) (by decide) (by decide)
    (by decide) (by decide) (by decide) (by decide) (by decide) (by decide)

/-! ## Claim C10: extension items are always persisted -/

theorem createDMP_fst (ctx : Ctx) (s : Store) (dmpId : String) (dmp : Doc)
    (v : String) (incl : Bool) :
    (createDMP ctx s dmpId dmp v incl).1 =
      (if (trimWS dmpId == "") = true then s
       else if ((v == DMP_LATEST_VERSION) && DMPExists s dmpId) = true then s
       else putItem
         (putItem s ⟨dmpIdToPK dmpId, versionToSK v, splitCore dmp⟩)
         ⟨dmpIdToPK dmpId, versionToExtensionSK v, splitExtension dmp⟩) := by
  simp only [createDMP]
  by_cases h1 : (trimWS dmpId == "") = true
  · rw [if_pos h1, if_pos h1]
  · rw [if_neg h1, if_neg h1]
    by_cases h2 : ((v == DMP_LATEST_VERSION) && DMPExists s dmpId) = true
    · rw [if_pos h2, if_pos h2]
    · rw [if_neg h2, if_neg h2]
      split <;> rfl

theorem createDMP_ok_ext (ctx : Ctx) (s : Store) (dmpId : String) (dmp : Doc)
    (v : String) (incl : Bool)
    (hok : isOkE (createDMP ctx s dmpId dmp v incl).2 = true) :
    queryExact (createDMP ctx s dmpId dmp v incl).1 (dmpIdToPK dmpId)
      (versionToExtensionSK v) =
      [⟨dmpIdToPK dmpId, versionToExtensionSK v, splitExtension dmp⟩] := by
  by_cases h1 : (trimWS dmpId == "") = true
  · exfalso
    have : (createDMP ctx s dmpId dmp v incl).2 = Except.error
        "Missing Dynamo config, DMP ID or DMP metadata record" := by
      simp only [createDMP, h1, if_true]
    rw [this] at hok
    exact Bool.false_ne_true hok
  · by_cases h2 : ((v == DMP_LATEST_VERSION) && DMPExists s dmpId) = true
    · exfalso
      have : (createDMP ctx s dmpId dmp v incl).2 = Except.error
          "Latest version already exists" := by
        simp only [createDMP, if_neg h1, if_pos h2]
      rw [this] at hok
      exact Bool.false_ne_true hok
    · rw [createDMP_fst, if_neg h1, if_neg h2]
      exact queryExact_putItem_same _ _

theorem updateDMP_walk (ctx : Ctx) (s : Store) (dmpId : String) (dmp : Doc)
    (g : Int) (incl : Bool) :
    ((updateDMP ctx s dmpId dmp g incl).1 =
        (updateDMP ctx s dmpId dmp g true).1) ∧
      (isOkE (updateDMP ctx s dmpId dmp g incl).2 = true →
        queryExact (updateDMP ctx s dmpId dmp g incl).1 (dmpIdToPK dmpId)
          (versionToExtensionSK DMP_LATEST_VERSION) =
          [⟨dmpIdToPK dmpId, versionToExtensionSK DMP_LATEST_VERSION,
            splitExtension dmp⟩]) := by
  cases h1 : (dmpId == "") with
  | true =>
    simp only [updateDMP, h1, if_true]
    exact ⟨trivial, fun hok => absurd hok Bool.false_ne_true⟩
  | false =>
    cases hg : getDMPs ctx s dmpId (some DMP_LATEST_VERSION) true with
    | error e =>
      simp only [updateDMP, h1, Bool.false_eq_true, if_false, hg]
      exact ⟨trivial, fun hok => absurd hok Bool.false_ne_true⟩
    | ok ls =>
      cases ls with
      | nil =>
        simp only [updateDMP, h1, Bool.false_eq_true, if_false, hg,
          List.head?_nil]
        exact ⟨trivial, fun hok => absurd hok Bool.false_ne_true⟩
      | cons L rest =>
        simp only [updateDMP, h1, Bool.false_eq_true, if_false, hg,
          List.head?_cons]
        cases hrej : (truthyValue (lookupKey L "tombstoned") ||
            jsGtStr (lookupKey L "modified") (lookupKey dmp "modified")) with
        | true =>
          simp only [hrej, if_true]
          exact ⟨trivial, fun hok => absurd hok Bool.false_ne_true⟩
        | false =>
          simp only [hrej, Bool.false_eq_true, if_false]
          cases hsnap : (if needToVersion ctx.now ctx.toTime L
              (splitExtension dmp)
              (if (g == 0) = true then DEFAULT_GRACE_PERIOD_MS else g) = true
            then createDMP ctx s dmpId L (jsVersionArg (lookupKey L "modified"))
              true
            else (s, Except.ok none)) with
          | mk snapS snapR =>
            cases snapR with
            | error e =>
              exact ⟨rfl, fun hok => absurd hok Bool.false_ne_true⟩

            | ok o =>
              constructor
              · cases hf1 : getDMPs ctx
                  (putItem (putItem snapS
                    ⟨dmpIdToPK dmpId, versionToSK DMP_LATEST_VERSION,
                      splitCore dmp⟩)
                    ⟨dmpIdToPK dmpId, versionToExtensionSK DMP_LATEST_VERSION,
                      splitExtension dmp⟩)
                  dmpId (some DMP_LATEST_VERSION) incl <;>
                cases hf2 : getDMPs ctx
                  (putItem (putItem snapS
                    ⟨dmpIdToPK dmpId, versionToSK DMP_LATEST_VERSION,
                      splitCore dmp⟩)
                    ⟨dmpIdToPK dmpId, versionToExtensionSK DMP_LATEST_VERSION,
                      splitExtension dmp⟩)
                  dmpId (some DMP_LATEST_VERSION) true <;> rfl
              · intro hok
                cases hf1 : getDMPs ctx
                  (putItem (putItem snapS
                    ⟨dmpIdToPK dmpId, versionToSK DMP_LATEST_VERSION,
                      splitCore dmp⟩)
                    ⟨dmpIdToPK dmpId, versionToExtensionSK DMP_LATEST_VERSION,
                      splitExtension dmp⟩)
                  dmpId (some DMP_LATEST_VERSION) incl with
                | error e =>
                  simp only [hf1, isOkE] at hok
                  exact absurd hok Bool.false_ne_true
                | ok docs =>
                  simp only [hf1]
                  exact queryExact_putItem_same _ _

/-- C10: for every call of `createDMP` or `updateDMP`, the extension item
is persisted regardless of the `includeExtensions` argument — the stores
the two settings leave behind are identical (conjuncts 1 and 3), and on
any successful call the stored extension item is exactly the split-off
extension part of the incoming document (conjuncts 2 and 4);
`includeExtensions` only shapes the returned document. -/
theorem C10_extensions_always_persisted :
    (∀ (ctx : Ctx) (s : Store) (dmpId : String) (dmp : Doc) (v : String),
      (createDMP ctx s dmpId dmp v true).1 =
        (createDMP ctx s dmpId dmp v false).1) ∧
    (∀ (ctx : Ctx) (s : Store) (dmpId : String) (dmp : Doc) (v : String)
        (incl : Bool),
      isOkE (createDMP ctx s dmpId dmp v incl).2 = true →
        queryExact (createDMP ctx s dmpId dmp v incl).1 (dmpIdToPK dmpId)
          (versionToExtensionSK v) =
          [⟨dmpIdToPK dmpId, versionToExtensionSK v, splitExtension dmp⟩]) ∧
    (∀ (ctx : Ctx) (s : Store) (dmpId : String) (dmp : Doc) (g : Int),
      (updateDMP ctx s dmpId dmp g true).1 =
        (updateDMP ctx s dmpId dmp g false).1) ∧
    (∀ (ctx : Ctx) (s : Store) (dmpId : String) (dmp : Doc) (g : Int)
        (incl : Bool),
      isOkE (updateDMP ctx s dmpId dmp g incl).2 = true →
        queryExact (updateDMP ctx s dmpId dmp g incl).1 (dmpIdToPK dmpId)
          (versionToExtensionSK DMP_LATEST_VERSION) =
          [⟨dmpIdToPK dmpId, versionToExtensionSK DMP_LATEST_VERSION,
            splitExtension dmp⟩]) := by
  refine ⟨?_, ?_, ?_, ?_⟩
  · intro ctx s dmpId dmp v
    rw [createDMP_fst, createDMP_fst]
  · intro ctx s dmpId dmp v incl hok
    exact createDMP_ok_ext ctx s dmpId dmp v incl hok
  · intro ctx s dmpId dmp g
    exact (updateDMP_walk ctx s dmpId dmp g false).1.symm
  · intro ctx s dmpId dmp g incl hok
    exact (updateDMP_walk ctx s dmpId dmp g incl).2 hok

/-- C10, witness: creating and updating the fixture record persists the
extension item under either `includeExtensions` setting. -/
theorem C10_extensions_always_persisted_witness :
    ((createDMP ctx0 [] dmpId0 incomingEq0 DMP_LATEST_VERSION true).1 =
        (createDMP ctx0 [] dmpId0 incomingEq0 DMP_LATEST_VERSION false).1) ∧
      (isOkE (updateDMP ctx0 store0 dmpId0 incomingEq0 7200000 false).2 =
          true ∧
        queryExact (updateDMP ctx0 store0 dmpId0 incomingEq0 7200000 false).1
          (dmpIdToPK dmpId0) (versionToExtensionSK DMP_LATEST_VERSION) =
          [⟨dmpIdToPK dmpId0, versionToExtensionSK DMP_LATEST_VERSION,
            splitExtension incomingEq0⟩]) := by
  refine ⟨C10_extensions_always_persisted.1 ctx0 [] dmpId0 incomingEq0
    DMP_LATEST_VERSION, ?_, ?_⟩
  · decide
  · exact C10_extensions_always_persisted.2.2.2 ctx0 store0 dmpId0 incomingEq0
      7200000 false (by decide)

/-! ## Frame conditions of the three mutating operations

Each operation can write only under its own sort keys; a `queryExact` at
any other key is unchanged.  These feed the C8 sequence invariant. -/

theorem queryExact_createDMP_frame (ctx : Ctx) (s : Store) (dmpId : String)
    (dmp : Doc) (v : String) (incl : Bool) (pk sk : String)
    (h1 : sk ≠ versionToSK v) (h2 : sk ≠ versionToExtensionSK v) :
    queryExact (createDMP ctx s dmpId dmp v incl).1 pk sk =
      queryExact s pk sk := by
  rw [createDMP_fst]
  by_cases ha : (trimWS dmpId == "") = true
  · rw [if_pos ha]
  · rw [if_neg ha]
    by_cases hb : ((v == DMP_LATEST_VERSION) && DMPExists s dmpId) = true
    · rw [if_pos hb]
    · rw [if_neg hb]
      rw [queryExact_putItem_other _ _ _ _ (fun hc => h2 hc.2)]
      rw [queryExact_putItem_other _ _ _ _ (fun hc => h1 hc.2)]

theorem queryExact_updateDMP_frame (ctx : Ctx) (s : Store) (dmpId : String)
    (dmp : Doc) (g : Int) (incl : Bool) (pk sk : String)
    (hl : sk ≠ versionToSK DMP_LATEST_VERSION)
    (hle : sk ≠ versionToExtensionSK DMP_LATEST_VERSION)
    (hs : sk ≠ versionToSK (updSnapToken ctx s dmpId))
    (hse : sk ≠ versionToExtensionSK (updSnapToken ctx s dmpId)) :
    queryExact (updateDMP ctx s dmpId dmp g incl).1 pk sk =
      queryExact s pk sk := by
  cases h1 : (dmpId == "") with
  | true =>
    simp only [updateDMP, h1, if_true]
  | false =>
    cases hg : getDMPs ctx s dmpId (some DMP_LATEST_VERSION) true with
    | error e =>
      simp only [updateDMP, h1, Bool.false_eq_true, if_false, hg]
    | ok ls =>
      cases ls with
      | nil =>
        simp only [updateDMP, h1, Bool.false_eq_true, if_false, hg,
          List.head?_nil]
      | cons L rest =>
        have htok : updSnapToken ctx s dmpId =
            jsVersionArg (lookupKey L "modified") := by
          simp only [updSnapToken, hg]
        rw [htok] at hs hse
        simp only [updateDMP, h1, Bool.false_eq_true, if_false, hg,
          List.head?_cons]
        cases hrej : (truthyValue (lookupKey L "tombstoned") ||
            jsGtStr (lookupKey L "modified") (lookupKey dmp "modified")) with
        | true =>
          simp only [hrej, if_true]
        | false =>
          simp only [hrej, Bool.false_eq_true, if_false]
          cases hntv : needToVersion ctx.now ctx.toTime L (splitExtension dmp)
              (if (g == 0) = true then DEFAULT_GRACE_PERIOD_MS else g) with
          | false =>
            simp only [Bool.false_eq_true, if_false]
            have hq : queryExact (putItem (putItem s
                ⟨dmpIdToPK dmpId, versionToSK DMP_LATEST_VERSION,
                  splitCore dmp⟩)
                ⟨dmpIdToPK dmpId, versionToExtensionSK DMP_LATEST_VERSION,
                  splitExtension dmp⟩) pk sk = queryExact s pk sk := by
              rw [queryExact_putItem_other _ _ _ _ (fun hc => hle hc.2)]
              rw [queryExact_putItem_other _ _ _ _ (fun hc => hl hc.2)]
            cases hfin : getDMPs ctx (putItem (putItem s
                ⟨dmpIdToPK dmpId, versionToSK DMP_LATEST_VERSION,
                  splitCore dmp⟩)
                ⟨dmpIdToPK dmpId, versionToExtensionSK DMP_LATEST_VERSION,
                  splitExtension dmp⟩) dmpId (some DMP_LATEST_VERSION)
                incl <;>
              exact hq
          | true =>
            simp only [if_true]
            have hcf : queryExact (createDMP ctx s dmpId L
                (jsVersionArg (lookupKey L "modified")) true).1 pk sk =
                queryExact s pk sk :=
              queryExact_createDMP_frame ctx s dmpId L
                (jsVersionArg (lookupKey L "modified")) true pk sk hs hse
            cases hsnap : (createDMP ctx s dmpId L
                (jsVersionArg (lookupKey L "modified")) true).2 with
            | error e =>
              exact hcf
            | ok o =>
              have hq : queryExact (putItem (putItem (createDMP ctx s dmpId L
                  (jsVersionArg (lookupKey L "modified")) true).1
                  ⟨dmpIdToPK dmpId, versionToSK DMP_LATEST_VERSION,
                    splitCore dmp⟩)
                  ⟨dmpIdToPK dmpId, versionToExtensionSK DMP_LATEST_VERSION,
                    splitExtension dmp⟩) pk sk = queryExact s pk sk := by
                rw [queryExact_putItem_other _ _ _ _ (fun hc => hle hc.2)]
                rw [queryExact_putItem_other _ _ _ _ (fun hc => hl hc.2)]
                exact hcf
              cases hfin : getDMPs ctx (putItem (putItem (createDMP ctx s
                  dmpId L (jsVersionArg (lookupKey L "modified")) true).1
                  ⟨dmpIdToPK dmpId, versionToSK DMP_LATEST_VERSION,
                    splitCore dmp⟩)
                  ⟨dmpIdToPK dmpId, versionToExtensionSK DMP_LATEST_VERSION,
                    splitExtension dmp⟩) dmpId (some DMP_LATEST_VERSION)
                  incl <;>
                exact hq

theorem queryExact_tombstoneDMP_frame (ctx : Ctx) (s : Store) (dmpId : String)
    (incl : Bool) (pk sk : String)
    (ht : sk ≠ versionToSK DMP_TOMBSTONE_VERSION)
    (hte : sk ≠ versionToExtensionSK DMP_TOMBSTONE_VERSION)
    (hl : sk ≠ versionToSK DMP_LATEST_VERSION)
    (hle : sk ≠ versionToExtensionSK DMP_LATEST_VERSION) :
    queryExact (tombstoneDMP ctx s dmpId incl).1 pk sk =
      queryExact s pk sk := by
  cases h1 : (trimWS dmpId == "") with
  | true =>
    simp only [tombstoneDMP, h1, if_true]
  | false =>
    cases hg : getDMPs ctx s dmpId (some DMP_LATEST_VERSION) true with
    | error e =>
      simp only [tombstoneDMP, h1, Bool.false_eq_true, if_false, hg]
    | ok ls =>
      cases ls with
      | nil =>
        simp only [tombstoneDMP, h1, Bool.false_eq_true, if_false, hg,
          List.head?_nil]
      | cons L rest =>
        simp only [tombstoneDMP, h1, Bool.false_eq_true, if_false, hg,
          List.head?_cons]
        cases hreg : truthyValue (lookupKey L "registered") with
        | false =>
          simp only [hreg, Bool.false_eq_true, if_false]
        | true =>
          simp only [hreg, if_true]
          cases hns : ctx.nowStr with
          | none =>
            simp only [hns]
          | some now =>
            simp only [hns]
            have hq : queryExact (deleteItem (putItem (deleteItem (putItem s
                ⟨dmpIdToPK dmpId, versionToSK DMP_TOMBSTONE_VERSION,
                  setKey (setKey (splitCore L) "title"
                      (Value.vStr ("OBSOLETE: " ++
                        jsToString (lookupKey L "title"))))
                    "modified" (Value.vStr now)⟩)
                (dmpIdToPK dmpId) (some (versionToSK DMP_LATEST_VERSION)))
                ⟨dmpIdToPK dmpId, versionToExtensionSK DMP_TOMBSTONE_VERSION,
                  setKey (splitExtension L) "tombstoned" (Value.vStr now)⟩)
                (dmpIdToPK dmpId)
                (some (versionToExtensionSK DMP_LATEST_VERSION))) pk sk =
                queryExact s pk sk := by
              rw [queryExact_deleteItem_some_other _ _ _ _ _
                (fun hc => hle hc.2)]
              rw [queryExact_putItem_other _ _ _ _ (fun hc => hte hc.2)]
              rw [queryExact_deleteItem_some_other _ _ _ _ _
                (fun hc => hl hc.2)]
              rw [queryExact_putItem_other _ _ _ _ (fun hc => ht hc.2)]
            cases hfin : getDMPs ctx (deleteItem (putItem (deleteItem
                (putItem s
                ⟨dmpIdToPK dmpId, versionToSK DMP_TOMBSTONE_VERSION,
                  setKey (setKey (splitCore L) "title"
                      (Value.vStr ("OBSOLETE: " ++
                        jsToString (lookupKey L "title"))))
                    "modified" (Value.vStr now)⟩)
                (dmpIdToPK dmpId) (some (versionToSK DMP_LATEST_VERSION)))
                ⟨dmpIdToPK dmpId, versionToExtensionSK DMP_TOMBSTONE_VERSION,
                  setKey (splitExtension L) "tombstoned" (Value.vStr now)⟩)
                (dmpIdToPK dmpId)
                (some (versionToExtensionSK DMP_LATEST_VERSION)))
                dmpId (some DMP_TOMBSTONE_VERSION) incl <;>
              exact hq

/-- C8 (amended): a snapshot written under a timestamp token survives every
subsequent sequence of store operations that does not re-target the token —
no `createDMP` names it as its `version` argument and no `updateDMP` runs
when the current latest's `modified` renders it (the original claim, with
no such restriction, is refuted: `createDMP` at an existing timestamp token
overwrites the snapshot).  The token is not `latest` or `tombstone`, so the
statement covers exactly the timestamp-keyed snapshot items; the whole
`queryExact` view of the snapshot's key is preserved, hence in particular
the item's contents. -/
theorem C8_snapshot_immutable (ctx : Ctx) (tok pk : String)
    (h1 : tok ≠ DMP_LATEST_VERSION) (h2 : tok ≠ DMP_TOMBSTONE_VERSION) :
    ∀ (ops : List StoreOp) (s : Store), avoidsToken ctx tok s ops = true →
      queryExact (applyOps ctx s ops) pk (versionToSK tok) =
        queryExact s pk (versionToSK tok) := by
  intro ops
  induction ops with
  | nil =>
    intro s _
    rfl
  | cons op ops ih =>
    intro s hav
    simp only [avoidsToken, Bool.and_eq_true] at hav
    obtain ⟨hop, hrest⟩ := hav
    rw [applyOps, ih (applyOp ctx s op) hrest]
    cases op with
    | create dmpId dmp v incl =>
      have hv : tok ≠ v := by
        intro he
        rw [he] at hop
        simp at hop
      exact queryExact_createDMP_frame ctx s dmpId dmp v incl pk
        (versionToSK tok) (versionToSK_ne hv) (versionToSK_ne_extensionSK _ _)
    | update dmpId dmp g incl =>
      have hv : tok ≠ updSnapToken ctx s dmpId := by
        intro he
        rw [he] at hop
        simp at hop
      exact queryExact_updateDMP_frame ctx s dmpId dmp g incl pk
        (versionToSK tok) (versionToSK_ne h1) (versionToSK_ne_extensionSK _ _)
        (versionToSK_ne hv) (versionToSK_ne_extensionSK _ _)
    | tombstone dmpId incl =>
      exact queryExact_tombstoneDMP_frame ctx s dmpId incl pk
        (versionToSK tok) (versionToSK_ne h2) (versionToSK_ne_extensionSK _ _)
        (versionToSK_ne h1) (versionToSK_ne_extensionSK _ _)

/-- C8 (amended), witness: the fixture snapshot (token
`2020-01-01T00:00:00Z`) survives an update with a changed provenance
followed by a create under a different version token. -/
theorem C8_snapshot_immutable_witness :
    ("2020-01-01T00:00:00Z" ≠ DMP_LATEST_VERSION) ∧
      ("2020-01-01T00:00:00Z" ≠ DMP_TOMBSTONE_VERSION) ∧
      avoidsToken ctx0 "2020-01-01T00:00:00Z" (store0 ++ snapStore0)
        [StoreOp.update dmpId0 incomingNewProv0 7200000 true,
         StoreOp.create dmpId0 coreAttrs0 "2026-01-01T00:00:00Z" false] =
        true ∧
      queryExact (applyOps ctx0 (store0 ++ snapStore0)
          [StoreOp.update dmpId0 incomingNewProv0 7200000 true,
           StoreOp.create dmpId0 coreAttrs0 "2026-01-01T00:00:00Z" false])
        (dmpIdToPK dmpId0) (versionToSK "2020-01-01T00:00:00Z") =
        queryExact (store0 ++ snapStore0) (dmpIdToPK dmpId0)
          (versionToSK "2020-01-01T00:00:00Z") :=
  ⟨by decide, by decide, by decide,
    C8_snapshot_immutable ctx0 "2020-01-01T00:00:00Z" (dmpIdToPK dmpId0)
      (by decide) (by decide)
      [StoreOp.update dmpId0 incomingNewProv0 7200000 true,
       StoreOp.create dmpId0 coreAttrs0 "2026-01-01T00:00:00Z" false]
      (store0 ++ snapStore0) (by decide)⟩

/-! ## Counting the versions a record has

`getDMPVersions` reports one entry per stored `VERSION#*` item that passes
`mkVersionEntry`; the lemmas below split that count by sort key so the
effect of an update's writes can be accounted for item by item. -/

theorem strIsPrefixOf_versionSK (v : String) :
    strIsPrefixOf DMP_VERSION_PREFIX (versionToSK v) = true := by
  have hd := versionToSK_data v
  simp [strIsPrefixOf, hd, List.isPrefixOf]

theorem strIsPrefixOf_extensionSK (v : String) :
    strIsPrefixOf DMP_VERSION_PREFIX (versionToExtensionSK v) = false := by
  have hd := versionToExtensionSK_data v
  simp [strIsPrefixOf, hd, List.isPrefixOf]

theorem dmpIdToPK_ne_blank (d : String) : dmpIdToPK d ≠ "" := by
  intro he
  have hd : (dmpIdToPK d).data =
      'D' :: 'M' :: 'P' :: '#' :: stripSchemeL d.data := rfl
  rw [he] at hd
  exact List.noConfusion hd

theorem versionToSK_ne_blank (v : String) : versionToSK v ≠ "" := by
  intro he
  have hd := versionToSK_data v
  rw [he] at hd
  exact List.noConfusion hd

theorem lookupKey_splitCore {α : Type} (inner : List (String × α))
    (k : String) (hk : EXTENSION_KEYS.contains k = false) :
    lookupKey (splitCore inner) k = lookupKey inner k := by
  simp only [splitCore]
  rw [lookupKey_pick]
  by_cases hmem : k ∈ (keysOf inner).filter
      (fun k => !(EXTENSION_KEYS.contains k))
  · rw [if_pos hmem]
  · rw [if_neg hmem]
    cases hl : lookupKey inner k with
    | none => rfl
    | some v =>
      exfalso
      apply hmem
      rw [List.mem_filter]
      refine ⟨(mem_keysOf_iff_isSome inner k).mpr (by rw [hl]; rfl), ?_⟩
      have hk' : k ∉ EXTENSION_KEYS := by simpa using hk
      simp [hk']

theorem length_filterMap_filter_split {α β : Type} (Q P : α → Bool)
    (f : α → Option β) (t : List α) :
    ((t.filter P).filterMap f).length =
      ((t.filter (fun a => P a && Q a)).filterMap f).length +
        ((t.filter (fun a => P a && !(Q a))).filterMap f).length := by
  induction t with
  | nil => rfl
  | cons x xs ih =>
    simp only [List.filter_cons]
    cases hP : P x with
    | false =>
      simp only [hP, Bool.false_and, Bool.false_eq_true, if_false]
      exact ih
    | true =>
      cases hQ : Q x with
      | true =>
        cases hf : f x with
        | none =>
          simp only [hP, hQ, Bool.true_and, Bool.not_true, Bool.false_eq_true,
            if_false, if_true, List.filterMap_cons, hf]
          omega
        | some y =>
          simp only [hP, hQ, Bool.true_and, Bool.not_true, Bool.false_eq_true,
            if_false, if_true, List.filterMap_cons, hf, List.length_cons]
          omega
      | false =>
        cases hf : f x with
        | none =>
          simp only [hP, hQ, Bool.true_and, Bool.not_false, Bool.false_eq_true,
            if_false, if_true, List.filterMap_cons, hf]
          omega
        | some y =>
          simp only [hP, hQ, Bool.true_and, Bool.not_false, Bool.false_eq_true,
            if_false, if_true, List.filterMap_cons, hf, List.length_cons]
          omega

theorem versionCount_eq (s : Store) (dmpId : String)
    (hidt : (trimWS dmpId == "") = false) :
    versionCount s dmpId =
      ((s.filter (fun a => a.PK == dmpIdToPK dmpId &&
          strIsPrefixOf DMP_VERSION_PREFIX a.SK)).filterMap
        mkVersionEntry).length := by
  simp only [versionCount, getDMPVersions, hidt, Bool.false_eq_true, if_false,
    queryPrefix]
  rw [length_sortBy]

theorem filter_putItem_excluded (s : Store) (it : Item) (pred : Item → Bool)
    (h : ∀ a : Item, a.PK = it.PK → a.SK = it.SK → pred a = false) :
    (putItem s it).filter pred = s.filter pred := by
  simp only [putItem, List.filter_cons, h it rfl rfl, Bool.false_eq_true,
    if_false, List.filter_filter]
  apply List.filter_congr
  intro a _
  cases hk : (a.PK == it.PK) with
  | false => simp [hk]
  | true =>
    cases hsk : (a.SK == it.SK) with
    | false => simp [hk, hsk]
    | true =>
      have hp := h a (eq_of_beq hk) (eq_of_beq hsk)
      simp [hk, hsk, hp]

theorem filter_and_skEq_eq_queryExact (s : Store) (pk v : String) :
    s.filter (fun a => (a.PK == pk &&
        strIsPrefixOf DMP_VERSION_PREFIX a.SK) &&
        (a.SK == versionToSK v)) = queryExact s pk (versionToSK v) := by
  rw [queryExact]
  apply List.filter_congr
  intro a _
  cases hsk : (a.SK == versionToSK v) with
  | false => simp [hsk]
  | true =>
    have hpre : strIsPrefixOf DMP_VERSION_PREFIX a.SK = true := by
      rw [show a.SK = versionToSK v from eq_of_beq hsk]
      exact strIsPrefixOf_versionSK v
    simp [hsk, hpre]

theorem filter_and_skNe_skEq_eq_queryExact (s : Store) (pk m : String)
    (hm : (m == DMP_LATEST_VERSION) = false) :
    s.filter (fun a => ((a.PK == pk &&
        strIsPrefixOf DMP_VERSION_PREFIX a.SK) &&
        !(a.SK == versionToSK DMP_LATEST_VERSION)) &&
        (a.SK == versionToSK m)) = queryExact s pk (versionToSK m) := by
  rw [queryExact]
  apply List.filter_congr
  intro a _
  cases hsk : (a.SK == versionToSK m) with
  | false => simp [hsk]
  | true =>
    have hs : a.SK = versionToSK m := eq_of_beq hsk
    have hpre : strIsPrefixOf DMP_VERSION_PREFIX a.SK = true := by
      rw [hs]
      exact strIsPrefixOf_versionSK m
    have hne : (a.SK == versionToSK DMP_LATEST_VERSION) = false := by
      rw [hs]
      exact beq_eq_false_iff_ne.mpr
        (versionToSK_ne (beq_eq_false_iff_ne.mp hm))
    simp [hsk, hpre, hne]

/-- The version count after the four writes of a snapshotting update: the
snapshot pair under the fresh token `m` and the overwritten `latest` pair.
The count rises by exactly one — the snapshot core item; the `latest` core
item replaces one that already counted, and extension items never count. -/
theorem versionCount_two_puts (s : Store) (dmpId m : String)
    (dc de dlc dle : Doc) (itc : Item)
    (hidt : (trimWS dmpId == "") = false)
    (hmlatest : (m == DMP_LATEST_VERSION) = false)
    (hcore : queryExact s (dmpIdToPK dmpId)
      (versionToSK DMP_LATEST_VERSION) = [itc])
    (hfresh : queryExact s (dmpIdToPK dmpId) (versionToSK m) = [])
    (hmkc : ∃ e, mkVersionEntry itc = some e)
    (hmks : ∃ e, mkVersionEntry
      ⟨dmpIdToPK dmpId, versionToSK m, dc⟩ = some e)
    (hmkl : ∃ e, mkVersionEntry
      ⟨dmpIdToPK dmpId, versionToSK DMP_LATEST_VERSION, dlc⟩ = some e) :
    versionCount (putItem (putItem (putItem (putItem s
        ⟨dmpIdToPK dmpId, versionToSK m, dc⟩)
        ⟨dmpIdToPK dmpId, versionToExtensionSK m, de⟩)
        ⟨dmpIdToPK dmpId, versionToSK DMP_LATEST_VERSION, dlc⟩)
        ⟨dmpIdToPK dmpId, versionToExtensionSK DMP_LATEST_VERSION, dle⟩)
      dmpId = versionCount s dmpId + 1 := by
  have hm' : m ≠ DMP_LATEST_VERSION := beq_eq_false_iff_ne.mp hmlatest
  have hsplit : ∀ t : Store,
      ((t.filter (fun a => a.PK == dmpIdToPK dmpId &&
          strIsPrefixOf DMP_VERSION_PREFIX a.SK)).filterMap
        mkVersionEntry).length =
      ((t.filter (fun a => (a.PK == dmpIdToPK dmpId &&
          strIsPrefixOf DMP_VERSION_PREFIX a.SK) &&
          (a.SK == versionToSK DMP_LATEST_VERSION))).filterMap
        mkVersionEntry).length +
      (((t.filter (fun a => ((a.PK == dmpIdToPK dmpId &&
          strIsPrefixOf DMP_VERSION_PREFIX a.SK) &&
          !(a.SK == versionToSK DMP_LATEST_VERSION)) &&
          (a.SK == versionToSK m))).filterMap mkVersionEntry).length +
        ((t.filter (fun a => ((a.PK == dmpIdToPK dmpId &&
          strIsPrefixOf DMP_VERSION_PREFIX a.SK) &&
          !(a.SK == versionToSK DMP_LATEST_VERSION)) &&
          !(a.SK == versionToSK m))).filterMap mkVersionEntry).length) := by
    intro t
    have h1 : ((t.filter (fun a => a.PK == dmpIdToPK dmpId &&
        strIsPrefixOf DMP_VERSION_PREFIX a.SK)).filterMap
        mkVersionEntry).length =
        ((t.filter (fun a => (a.PK == dmpIdToPK dmpId &&
          strIsPrefixOf DMP_VERSION_PREFIX a.SK) &&
          (a.SK == versionToSK DMP_LATEST_VERSION))).filterMap
          mkVersionEntry).length +
        ((t.filter (fun a => (a.PK == dmpIdToPK dmpId &&
          strIsPrefixOf DMP_VERSION_PREFIX a.SK) &&
          !(a.SK == versionToSK DMP_LATEST_VERSION))).filterMap
          mkVersionEntry).length :=
      length_filterMap_filter_split _ _ _ _
    have h2 : ((t.filter (fun a => (a.PK == dmpIdToPK dmpId &&
        strIsPrefixOf DMP_VERSION_PREFIX a.SK) &&
        !(a.SK == versionToSK DMP_LATEST_VERSION))).filterMap
        mkVersionEntry).length =
        ((t.filter (fun a => ((a.PK == dmpIdToPK dmpId &&
          strIsPrefixOf DMP_VERSION_PREFIX a.SK) &&
          !(a.SK == versionToSK DMP_LATEST_VERSION)) &&
          (a.SK == versionToSK m))).filterMap mkVersionEntry).length +
        ((t.filter (fun a => ((a.PK == dmpIdToPK dmpId &&
          strIsPrefixOf DMP_VERSION_PREFIX a.SK) &&
          !(a.SK == versionToSK DMP_LATEST_VERSION)) &&
          !(a.SK == versionToSK m))).filterMap mkVersionEntry).length :=
      length_filterMap_filter_split _ _ _ _
    omega
  have hqLat : queryExact (putItem (putItem (putItem (putItem s
      ⟨dmpIdToPK dmpId, versionToSK m, dc⟩)
      ⟨dmpIdToPK dmpId, versionToExtensionSK m, de⟩)
      ⟨dmpIdToPK dmpId, versionToSK DMP_LATEST_VERSION, dlc⟩)
      ⟨dmpIdToPK dmpId, versionToExtensionSK DMP_LATEST_VERSION, dle⟩)
      (dmpIdToPK dmpId) (versionToSK DMP_LATEST_VERSION) =
      [⟨dmpIdToPK dmpId, versionToSK DMP_LATEST_VERSION, dlc⟩] := by
    rw [queryExact_putItem_other _ _ _ _ (fun hc =>
      versionToSK_ne_extensionSK DMP_LATEST_VERSION DMP_LATEST_VERSION hc.2)]
    exact queryExact_putItem_same _ _
  have hqM : queryExact (putItem (putItem (putItem (putItem s
      ⟨dmpIdToPK dmpId, versionToSK m, dc⟩)
      ⟨dmpIdToPK dmpId, versionToExtensionSK m, de⟩)
      ⟨dmpIdToPK dmpId, versionToSK DMP_LATEST_VERSION, dlc⟩)
      ⟨dmpIdToPK dmpId, versionToExtensionSK DMP_LATEST_VERSION, dle⟩)
      (dmpIdToPK dmpId) (versionToSK m) =
      [⟨dmpIdToPK dmpId, versionToSK m, dc⟩] := by
    rw [queryExact_putItem_other _ _ _ _ (fun hc =>
      versionToSK_ne_extensionSK m DMP_LATEST_VERSION hc.2)]
    rw [queryExact_putItem_other _ _ _ _ (fun hc =>
      versionToSK_ne hm' hc.2)]
    rw [queryExact_putItem_other _ _ _ _ (fun hc =>
      versionToSK_ne_extensionSK m m hc.2)]
    exact queryExact_putItem_same _ _
  have hSnapC : ∀ a : Item,
      a.PK = (⟨dmpIdToPK dmpId, versionToSK m, dc⟩ : Item).PK →
      a.SK = (⟨dmpIdToPK dmpId, versionToSK m, dc⟩ : Item).SK →
      (((a.PK == dmpIdToPK dmpId &&
        strIsPrefixOf DMP_VERSION_PREFIX a.SK) &&
        !(a.SK == versionToSK DMP_LATEST_VERSION)) &&
        !(a.SK == versionToSK m)) = false := by
    intro a _ hSK
    have hq : (a.SK == versionToSK m) = true := by
      rw [show a.SK = versionToSK m from hSK]
      exact beq_self_eq_true _
    simp [hq]
  have hSnapE : ∀ a : Item,
      a.PK = (⟨dmpIdToPK dmpId, versionToExtensionSK m, de⟩ : Item).PK →
      a.SK = (⟨dmpIdToPK dmpId, versionToExtensionSK m, de⟩ : Item).SK →
      (((a.PK == dmpIdToPK dmpId &&
        strIsPrefixOf DMP_VERSION_PREFIX a.SK) &&
        !(a.SK == versionToSK DMP_LATEST_VERSION)) &&
        !(a.SK == versionToSK m)) = false := by
    intro a _ hSK
    have hpre : strIsPrefixOf DMP_VERSION_PREFIX a.SK = false := by
      rw [show a.SK = versionToExtensionSK m from hSK]
      exact strIsPrefixOf_extensionSK m
    simp [hpre]
  have hLatC : ∀ a : Item,
      a.PK = (⟨dmpIdToPK dmpId, versionToSK DMP_LATEST_VERSION, dlc⟩ :
        Item).PK →
      a.SK = (⟨dmpIdToPK dmpId, versionToSK DMP_LATEST_VERSION, dlc⟩ :
        Item).SK →
      (((a.PK == dmpIdToPK dmpId &&
        strIsPrefixOf DMP_VERSION_PREFIX a.SK) &&
        !(a.SK == versionToSK DMP_LATEST_VERSION)) &&
        !(a.SK == versionToSK m)) = false := by
    intro a _ hSK
    have hq : (a.SK == versionToSK DMP_LATEST_VERSION) = true := by
      rw [show a.SK = versionToSK DMP_LATEST_VERSION from hSK]
      exact beq_self_eq_true _
    simp [hq]
  have hLatE : ∀ a : Item,
      a.PK = (⟨dmpIdToPK dmpId, versionToExtensionSK DMP_LATEST_VERSION,
        dle⟩ : Item).PK →
      a.SK = (⟨dmpIdToPK dmpId, versionToExtensionSK DMP_LATEST_VERSION,
        dle⟩ : Item).SK →
      (((a.PK == dmpIdToPK dmpId &&
        strIsPrefixOf DMP_VERSION_PREFIX a.SK) &&
        !(a.SK == versionToSK DMP_LATEST_VERSION)) &&
        !(a.SK == versionToSK m)) = false := by
    intro a _ hSK
    have hpre : strIsPrefixOf DMP_VERSION_PREFIX a.SK = false := by
      rw [show a.SK = versionToExtensionSK DMP_LATEST_VERSION from hSK]
      exact strIsPrefixOf_extensionSK DMP_LATEST_VERSION
    simp [hpre]
  have hRest : ((putItem (putItem (putItem (putItem s
      ⟨dmpIdToPK dmpId, versionToSK m, dc⟩)
      ⟨dmpIdToPK dmpId, versionToExtensionSK m, de⟩)
      ⟨dmpIdToPK dmpId, versionToSK DMP_LATEST_VERSION, dlc⟩)
      ⟨dmpIdToPK dmpId, versionToExtensionSK DMP_LATEST_VERSION,
        dle⟩).filter (fun a => ((a.PK == dmpIdToPK dmpId &&
      strIsPrefixOf DMP_VERSION_PREFIX a.SK) &&
      !(a.SK == versionToSK DMP_LATEST_VERSION)) &&
      !(a.SK == versionToSK m))) =
      s.filter (fun a => ((a.PK == dmpIdToPK dmpId &&
        strIsPrefixOf DMP_VERSION_PREFIX a.SK) &&
        !(a.SK == versionToSK DMP_LATEST_VERSION)) &&
        !(a.SK == versionToSK m)) := by
    rw [filter_putItem_excluded _ _ _ hLatE]
    rw [filter_putItem_excluded _ _ _ hLatC]
    rw [filter_putItem_excluded _ _ _ hSnapE]
    rw [filter_putItem_excluded _ _ _ hSnapC]
  obtain ⟨ec, hec⟩ := hmkc
  obtain ⟨es, hes⟩ := hmks
  obtain ⟨el, hel⟩ := hmkl
  have hLat_s : ((s.filter (fun a => (a.PK == dmpIdToPK dmpId &&
      strIsPrefixOf DMP_VERSION_PREFIX a.SK) &&
      (a.SK == versionToSK DMP_LATEST_VERSION))).filterMap
      mkVersionEntry).length = 1 := by
    rw [filter_and_skEq_eq_queryExact, hcore]
    simp [hec]
  have hM_s : ((s.filter (fun a => ((a.PK == dmpIdToPK dmpId &&
      strIsPrefixOf DMP_VERSION_PREFIX a.SK) &&
      !(a.SK == versionToSK DMP_LATEST_VERSION)) &&
      (a.SK == versionToSK m))).filterMap mkVersionEntry).length = 0 := by
    rw [filter_and_skNe_skEq_eq_queryExact s (dmpIdToPK dmpId) m hmlatest,
      hfresh]
    rfl
  have hLat_S : (((putItem (putItem (putItem (putItem s
      ⟨dmpIdToPK dmpId, versionToSK m, dc⟩)
      ⟨dmpIdToPK dmpId, versionToExtensionSK m, de⟩)
      ⟨dmpIdToPK dmpId, versionToSK DMP_LATEST_VERSION, dlc⟩)
      ⟨dmpIdToPK dmpId, versionToExtensionSK DMP_LATEST_VERSION,
        dle⟩).filter (fun a => (a.PK == dmpIdToPK dmpId &&
      strIsPrefixOf DMP_VERSION_PREFIX a.SK) &&
      (a.SK == versionToSK DMP_LATEST_VERSION))).filterMap
      mkVersionEntry).length = 1 := by
    rw [filter_and_skEq_eq_queryExact, hqLat]
    simp [hel]
  have hM_S : (((putItem (putItem (putItem (putItem s
      ⟨dmpIdToPK dmpId, versionToSK m, dc⟩)
      ⟨dmpIdToPK dmpId, versionToExtensionSK m, de⟩)
      ⟨dmpIdToPK dmpId, versionToSK DMP_LATEST_VERSION, dlc⟩)
      ⟨dmpIdToPK dmpId, versionToExtensionSK DMP_LATEST_VERSION,
        dle⟩).filter (fun a => ((a.PK == dmpIdToPK dmpId &&
      strIsPrefixOf DMP_VERSION_PREFIX a.SK) &&
      !(a.SK == versionToSK DMP_LATEST_VERSION)) &&
      (a.SK == versionToSK m))).filterMap mkVersionEntry).length = 1 := by
    rw [filter_and_skNe_skEq_eq_queryExact _ (dmpIdToPK dmpId) m hmlatest,
      hqM]
    simp [hes]
  rw [versionCount_eq _ _ hidt, versionCount_eq s dmpId hidt]
  have hs1 := hsplit s
  have hs4 := hsplit (putItem (putItem (putItem (putItem s
      ⟨dmpIdToPK dmpId, versionToSK m, dc⟩)
      ⟨dmpIdToPK dmpId, versionToExtensionSK m, de⟩)
      ⟨dmpIdToPK dmpId, versionToSK DMP_LATEST_VERSION, dlc⟩)
      ⟨dmpIdToPK dmpId, versionToExtensionSK DMP_LATEST_VERSION, dle⟩)
  rw [hRest] at hs4
  omega

/-- C5: a successful `updateDMP` whose incoming extension carries a changed
`provenance` adds exactly one snapshot, stored under the version token
equal to the previous latest's `modified` value `m`: the snapshot's key was
vacant before (hypothesis `hfresh`) and afterwards holds exactly one item,
whose own `modified` is `m`; and the number of versions `getDMPVersions`
reports rises by exactly one.  The hypotheses pin the read of the current
latest (one core item, one extension item) as in C4, and require the
incoming document's `modified` to be a non-blank string so the overwritten
`latest` item keeps counting as a version. -/
theorem C5_changed_provenance_adds_version (ctx : Ctx) (s : Store)
    (dmpId : String) (dmp : Doc) (g : Int) (incl : Bool) (itc ite : Item)
    (m b : String)
    (hid : (dmpId == "") = false)
    (hidt : (trimWS dmpId == "") = false)
    (hcore : queryExact s (dmpIdToPK dmpId)
      (versionToSK DMP_LATEST_VERSION) = [itc])
    (hext : queryExact s (dmpIdToPK dmpId)
      (versionToExtensionSK DMP_LATEST_VERSION) = [ite])
    (hmodc : lookupKey itc.attrs "modified" = some (Value.vStr m))
    (hmode : lookupKey ite.attrs "modified" = none)
    (htombc : lookupKey itc.attrs "tombstoned" = none)
    (htombe : lookupKey ite.attrs "tombstoned" = none)
    (hprovC : lookupKey itc.attrs "provenance" = none)
    (hprov : lookupKey dmp "provenance" ≠ lookupKey ite.attrs "provenance")
    (hnotstale : jsGtStr (some (Value.vStr m)) (lookupKey dmp "modified") =
      false)
    (hmlatest : (m == DMP_LATEST_VERSION) = false)
    (hmne : (m == "") = false)
    (hmoddmp : lookupKey dmp "modified" = some (Value.vStr b))
    (hbne : (b == "") = false)
    (hfresh : queryExact s (dmpIdToPK dmpId) (versionToSK m) = []) :
    ∃ d, (updateDMP ctx s dmpId dmp g incl).2 = Except.ok d ∧
      (∃ snap, queryExact (updateDMP ctx s dmpId dmp g incl).1
          (dmpIdToPK dmpId) (versionToSK m) = [snap] ∧
        lookupKey snap.attrs "modified" = some (Value.vStr m)) ∧
      versionCount (updateDMP ctx s dmpId dmp g incl).1 dmpId =
        versionCount s dmpId + 1 := by
  obtain ⟨extr, hg, hlk⟩ := getDMPs_exact_single ctx s dmpId
    DMP_LATEST_VERSION itc ite hidt rfl hcore hext
  have hmodL : lookupKey (objMerge itc.attrs extr) "modified" =
      some (Value.vStr m) := by
    rw [lookupKey_objMerge, hlk "modified" (by decide), hmode]
    simpa [Option.orElse] using hmodc
  have htombL : truthyValue
      (lookupKey (objMerge itc.attrs extr) "tombstoned") = false := by
    rw [lookupKey_objMerge, hlk "tombstoned" (by decide), htombe]
    simp [Option.orElse, htombc, truthyValue]
  have hprovL : lookupKey (objMerge itc.attrs extr) "provenance" =
      lookupKey ite.attrs "provenance" := by
    rw [lookupKey_objMerge, hlk "provenance" (by decide)]
    cases hpe : lookupKey ite.attrs "provenance" with
    | none => simp [Option.orElse, hprovC]
    | some w => simp [Option.orElse]
  have hpe : lookupKey (splitExtension dmp) "provenance" =
      lookupKey dmp "provenance" := by
    rw [splitExtension, lookupKey_pick,
      if_pos (by decide : "provenance" ∈ EXTENSION_KEYS)]
  have hdec : (decide (lookupKey (splitExtension dmp) "provenance" ≠
      lookupKey (objMerge itc.attrs extr) "provenance")) = true := by
    rw [hpe, hprovL]
    exact decide_eq_true hprov
  have hntv : needToVersion ctx.now ctx.toTime (objMerge itc.attrs extr)
      (splitExtension dmp)
      (if (g == 0) = true then DEFAULT_GRACE_PERIOD_MS else g) = true := by
    simp only [needToVersion, hdec, Bool.true_or]
  obtain ⟨d, hshape⟩ := updateDMP_shape ctx s dmpId dmp g incl itc extr m
    hid hidt hg hmodL htombL hnotstale hmlatest
  have hshape' : updateDMP ctx s dmpId dmp g incl =
      (putItem (putItem (putItem (putItem s
        ⟨dmpIdToPK dmpId, versionToSK m,
          splitCore (objMerge itc.attrs extr)⟩)
        ⟨dmpIdToPK dmpId, versionToExtensionSK m,
          splitExtension (objMerge itc.attrs extr)⟩)
        ⟨dmpIdToPK dmpId, versionToSK DMP_LATEST_VERSION, splitCore dmp⟩)
        ⟨dmpIdToPK dmpId, versionToExtensionSK DMP_LATEST_VERSION,
          splitExtension dmp⟩, Except.ok d) := by
    rw [hshape, hntv]
    rfl
  have hm' : m ≠ DMP_LATEST_VERSION := beq_eq_false_iff_ne.mp hmlatest
  have hst : (updateDMP ctx s dmpId dmp g incl).1 =
      putItem (putItem (putItem (putItem s
        ⟨dmpIdToPK dmpId, versionToSK m,
          splitCore (objMerge itc.attrs extr)⟩)
        ⟨dmpIdToPK dmpId, versionToExtensionSK m,
          splitExtension (objMerge itc.attrs extr)⟩)
        ⟨dmpIdToPK dmpId, versionToSK DMP_LATEST_VERSION, splitCore dmp⟩)
        ⟨dmpIdToPK dmpId, versionToExtensionSK DMP_LATEST_VERSION,
          splitExtension dmp⟩ := by
    rw [hshape']
  have hqsnap : queryExact (updateDMP ctx s dmpId dmp g incl).1
      (dmpIdToPK dmpId) (versionToSK m) =
      [⟨dmpIdToPK dmpId, versionToSK m,
        splitCore (objMerge itc.attrs extr)⟩] := by
    rw [hst]
    rw [queryExact_putItem_other _ _ _ _ (fun hc =>
      versionToSK_ne_extensionSK m DMP_LATEST_VERSION hc.2)]
    rw [queryExact_putItem_other _ _ _ _ (fun hc =>
      versionToSK_ne hm' hc.2)]
    rw [queryExact_putItem_other _ _ _ _ (fun hc =>
      versionToSK_ne_extensionSK m m hc.2)]
    exact queryExact_putItem_same _ _
  have hmodSplit : lookupKey (splitCore (objMerge itc.attrs extr))
      "modified" = some (Value.vStr m) := by
    rw [lookupKey_splitCore _ _ (by decide), hmodL]
  refine ⟨d, by rw [hshape'], ⟨_, hqsnap, hmodSplit⟩, ?_⟩
  have hmem : itc ∈ queryExact s (dmpIdToPK dmpId)
      (versionToSK DMP_LATEST_VERSION) := by
    rw [hcore]
    exact List.mem_singleton.mpr rfl
  obtain ⟨hPKc, hSKc⟩ := queryExact_mem s _ _ itc hmem
  have c1 : ((dmpIdToPK dmpId) == "") = false :=
    beq_eq_false_iff_ne.mpr (dmpIdToPK_ne_blank dmpId)
  have hmkc : ∃ e, mkVersionEntry itc = some e := by
    have c1' : (itc.PK == "") = false := by
      rw [hPKc]
      exact c1
    have c2' : (itc.SK == "") = false := by
      rw [hSKc]
      exact beq_eq_false_iff_ne.mpr (versionToSK_ne_blank _)
    refine ⟨⟨pkToDmpId itc.PK, m⟩, ?_⟩
    simp [mkVersionEntry, hmodc, c1', c2', hmne]
  have hmks : ∃ e, mkVersionEntry
      ⟨dmpIdToPK dmpId, versionToSK m,
        splitCore (objMerge itc.attrs extr)⟩ = some e := by
    have c2 : ((versionToSK m) == "") = false :=
      beq_eq_false_iff_ne.mpr (versionToSK_ne_blank m)
    refine ⟨⟨pkToDmpId (dmpIdToPK dmpId), m⟩, ?_⟩
    simp [mkVersionEntry, hmodSplit, c1, c2, hmne]
  have hmodSplitDmp : lookupKey (splitCore dmp) "modified" =
      some (Value.vStr b) := by
    rw [lookupKey_splitCore _ _ (by decide), hmoddmp]
  have hmkl : ∃ e, mkVersionEntry
      ⟨dmpIdToPK dmpId, versionToSK DMP_LATEST_VERSION,
        splitCore dmp⟩ = some e := by
    have c2 : ((versionToSK DMP_LATEST_VERSION) == "") = false :=
      beq_eq_false_iff_ne.mpr (versionToSK_ne_blank _)
    refine ⟨⟨pkToDmpId (dmpIdToPK dmpId), b⟩, ?_⟩
    simp [mkVersionEntry, hmodSplitDmp, c1, c2, hbne]
  rw [hst]
  exact versionCount_two_puts s dmpId m
    (splitCore (objMerge itc.attrs extr))
    (splitExtension (objMerge itc.attrs extr))
    (splitCore dmp) (splitExtension dmp) itc
    hidt hmlatest hcore hfresh hmkc hmks hmkl

/-- C5, witness: the fixture update with a changed `provenance` snapshots
the stored latest under its `modified` token and raises the version count
from one to two. -/
theorem C5_changed_provenance_adds_version_witness :
    ∃ d, (updateDMP ctx0 store0 dmpId0 incomingNewProv0 7200000 true).2 =
        Except.ok d ∧
      (∃ snap, queryExact (updateDMP ctx0 store0 dmpId0 incomingNewProv0
            7200000 true).1 (dmpIdToPK dmpId0)
          (versionToSK "2025-01-01T00:00:00Z") = [snap] ∧
        lookupKey snap.attrs "modified" =
          some (Value.vStr "2025-01-01T00:00:00Z")) ∧
      versionCount (updateDMP ctx0 store0 dmpId0 incomingNewProv0 7200000
          true).1 dmpId0 =
        versionCount store0 dmpId0 + 1 :=
  C5_changed_provenance_adds_version ctx0 store0 dmpId0 incomingNewProv0
    7200000 true
    ⟨dmpIdToPK dmpId0, versionToSK DMP_LATEST_VERSION, coreAttrs0⟩
    ⟨dmpIdToPK dmpId0, versionToExtensionSK DMP_LATEST_VERSION, extAttrs0⟩
    "2025-01-01T00:00:00Z" "2025-01-03T00:00:00Z"
    (by decide) (by decide) (by decide) (by decide) (by decide) (by decide)
    (by decide) (by decide) (by decide) (by decide) (by decide) (by decide)
    (by decide) (by decide) (by decide) (by decide)

end DmpStore
